import Mathlib

/-! http-continuous-benchmarking: alert evaluation, trial loop and environment validation

A shallow embedding of `main.go` (the function `main` as a trace of its calls,
its alert phase and the per-trial merge of worker results) and of
`validation.go` (the environment validators), with the properties of the
specification stated and proved over it.

Conventions of the embedding:

* a Go `string` is a Lean `String`; `os.Getenv` is a function `String → String`
  returning `""` for an unset variable;
* a Go `error` is `Option String`: `none` is `nil`, `some msg` is
  `errors.New(msg)`; a `[]error` is a `List String`, `nil` being `[]`;
* a Go `int` is a 64-bit signed integer: an `Int` wrapped by `wrapInt64`
  after every addition;
* calls with effects (`fmt.Println`, `os.Exit`, `Warmup`, `Attack`,
  `CalculatePerTrial`, `time.Sleep`, `IsOverThreshHold`, `NotifyAlert`) are
  recorded, in program order, in a trace of `Event`s; the goroutines of a
  trial are interleaved by an arbitrary scheduler;
* `encoding/json` is not part of the repository: its two uses are taken as
  parameters (`Json`).
-/

namespace Benchmark

/-! ## main.go: constants -/

def EnvTargetUrl : String := "INPUT_TARGET_URL"
def EnvHttpHeaders : String := "INPUT_HTTP_HEADERS"
def EnvThreadNum : String := "INPUT_THREAD_NUM"
def EnvTrialNum : String := "INPUT_TRIAL_NUM"
def EnvReqHttpMethodRatio : String := "INPUT_REQ_HTTP_METHOD_RATIO"
def EnvHttpRequestBody : String := "INPUT_HTTP_REQ_BODY"
def EnvPermanent : String := "INPUT_PERMANENT"
def EnvEnableAlert : String := "INPUT_ENABLE_ALERT"
def EnvSlackWebHookUrl : String := "INPUT_SLACK_WEB_HOOK_URL"
def EnvSlackChannel : String := "INPUT_SLACK_CHANNEL"
def EnvSlackNotifyThreshHoldLatencyMillis : String :=
  "INPUT_SLACK_NOTIFY_THRESHOLD_LATENCY_MILLIS"
def EnvSlackNotifyThreshHoldRps : String := "INPUT_SLACK_NOTIFY_THRESHOLD_RPS"

/-- The values of `net/http`'s method constants. -/
def MethodGet : String := "GET"
def MethodPut : String := "PUT"
def MethodPost : String := "POST"
def MethodPatch : String := "PATCH"
def MethodDelete : String := "DELETE"

/-- The scan order of the alert phase (`main.go`, `allowedHttpMethods`). -/
def allowedHttpMethods : List String :=
  [MethodGet, MethodPut, MethodPost, MethodPatch, MethodDelete]

/-! ## main.go: the alert phase -/

/-- Modelled from the spec: the metric-kind constants `PercentileAvg` and `Rps`
that `main` passes to `IsOverThreshHold` and `NotifyAlert` are declared outside
`src/`; the spec (4.5, 4.6) names them as two different kinds, the average
latency and the requests per second. -/
inductive PercentileKind where
  | PercentileAvg
  | Rps
  deriving DecidableEq, Repr

/-- Modelled from the spec: the `RuntimeInfo` type is declared outside `src/`;
these are the fields of it that the benchmark loop and the alert phase of
`main` read (spec 3, Config: trial count, thread count, alert enablement, the
two optional thresholds, the Slack destination). -/
structure RuntimeInfo where
  TrialNum : Int
  ThreadNum : Int
  EnableAlert : Bool
  SlackNotifyThreshHoldLatencyMillis : Int
  SlackNotifyThreshHoldRps : Int
  SlackWebHookUrl : String
  SlackChannel : String
  deriving DecidableEq, Repr

/-- The observable calls of `main`, in program order: `fmt.Println`,
`os.Exit`, `client.Warmup`, `client.Attack(index)`, the critical section in
which worker `index` merges its data, `calculator.CalculatePerTrial` (with its
method and trial index), `time.Sleep` (in seconds), `graph.GenerateCharts`,
`graph.Output`, `calculator.IsOverThreshHold` and `NotifyAlert`.  Constructors
and getters (`NewRuntimeInfo`, `NewBenchmarkClient`, `NewCalculator`,
`GetMetricsResult`, `NewGraph`, `NewSlack`, `time.Now`) are not recorded. -/
inductive Event where
  | println (s : String)
  | isOverThreshHold (kind : PercentileKind) (threshold : Int) (method : String)
  | notifyAlert (webHookUrl channel : String) (kind : PercentileKind)
  | exit (code : Int)
  | warmup
  | attack (index : Nat)
  | merge (index : Nat)
  | calculatePerTrial (method : String) (trial : Nat)
  | sleep (seconds : Nat)
  | generateCharts
  | output
  deriving DecidableEq, Repr

/-- Whether an event is a `NotifyAlert` call. -/
def Event.isNotify : Event → Bool
  | .notifyAlert _ _ _ => true
  | _ => false

/-- One `for _, method := range allowedHttpMethods` loop of the alert phase:
`IsOverThreshHold(queryKind, threshold, method)` is called on each method in
turn and, at the first `true`, `NotifyAlert(notifyKind)` is called and `main`
returns.  The calculator is threaded through as a state `σ`, so that
`IsOverThreshHold` may behave in any way.  The result is the trace of the loop,
whether `main` has returned, and the final calculator state. -/
def scanMethods {σ : Type}
    (IsOverThreshHold : σ → PercentileKind → Int → String → Bool × σ)
    (runtime : RuntimeInfo) (queryKind : PercentileKind) (threshold : Int)
    (notifyKind : PercentileKind) : List String → σ → List Event × Bool × σ
  | [], s => ([], false, s)
  | method :: rest, s =>
    match IsOverThreshHold s queryKind threshold method with
    | (true, s') =>
      ([Event.isOverThreshHold queryKind threshold method,
        Event.notifyAlert runtime.SlackWebHookUrl runtime.SlackChannel notifyKind],
       true, s')
    | (false, s') =>
      let r := scanMethods IsOverThreshHold runtime queryKind threshold notifyKind rest s'
      (Event.isOverThreshHold queryKind threshold method :: r.1, r.2.1, r.2.2)

/-- The alert phase at the end of `main` (`main.go`, lines 153-173).  Both
loops call `NotifyAlert(PercentileAvg)`, as the source does. -/
def alertPhase {σ : Type}
    (IsOverThreshHold : σ → PercentileKind → Int → String → Bool × σ)
    (runtime : RuntimeInfo) (calculator : σ) : List Event :=
  if runtime.EnableAlert then
    let t0 := [Event.println "\nCheck alert threshold"]
    let r1 : List Event × Bool × σ :=
      if runtime.SlackNotifyThreshHoldLatencyMillis ≠ 0 then
        scanMethods IsOverThreshHold runtime PercentileKind.PercentileAvg
          runtime.SlackNotifyThreshHoldLatencyMillis PercentileKind.PercentileAvg
          allowedHttpMethods calculator
      else ([], false, calculator)
    if r1.2.1 then t0 ++ r1.1
    else if runtime.SlackNotifyThreshHoldRps ≠ 0 then
      t0 ++ r1.1 ++
        (scanMethods IsOverThreshHold runtime PercentileKind.Rps
          runtime.SlackNotifyThreshHoldRps PercentileKind.PercentileAvg
          allowedHttpMethods r1.2.2).1
    else t0 ++ r1.1
  else []

/-- An `IsOverThreshHold` that only reads the calculator: its answer is a
function of the kind, the threshold and the method. -/
def readOnly (over : PercentileKind → Int → String → Bool) :
    Unit → PercentileKind → Int → String → Bool × Unit :=
  fun s kind threshold method => (over kind threshold method, s)

/-- The number of `NotifyAlert` calls in a trace. -/
def notifyCount (trace : List Event) : Nat := trace.countP Event.isNotify

/-- The methods queried for the given kind, in trace order. -/
def queriedMethods (k : PercentileKind) (trace : List Event) : List String :=
  trace.filterMap fun e =>
    match e with
    | .isOverThreshHold kind _ method => if kind = k then some method else none
    | _ => none

/-- The kinds handed to `NotifyAlert`, in trace order. -/
def notifiedKinds (trace : List Event) : List PercentileKind :=
  trace.filterMap fun e =>
    match e with
    | .notifyAlert _ _ kind => some kind
    | _ => none

/-! ## main.go: merging the workers of one trial -/

/-- The per-trial accumulator of `main`: one sample sequence per method and the
per-method error counters.  The `Result` type is declared outside `src/`; the
fields are those `main` reads and writes.  The sample type `α` and the type `ε`
of the error-counter mapping are left open. -/
structure Result (α ε : Type) where
  Get : List α
  Post : List α
  Put : List α
  Patch : List α
  Delete : List α
  ErrData : ε

/-- The body of the critical section of one worker (`main.go`, lines 121-128):
the worker's `data` is appended, field by field, to the trial's `result`.
`CalculateMethodErrors` is declared outside `src/` and is a parameter. -/
def mergeWorker {α ε : Type} (CalculateMethodErrors : ε → ε → ε)
    (result data : Result α ε) : Result α ε :=
  { Get := result.Get ++ data.Get
    Post := result.Post ++ data.Post
    Put := result.Put ++ data.Put
    Patch := result.Patch ++ data.Patch
    Delete := result.Delete ++ data.Delete
    ErrData := CalculateMethodErrors result.ErrData data.ErrData }

/-- The zero value of `var result Result`: five nil slices and the zero value
`nilErrData` of the error-counter mapping. -/
def zeroResult {α ε : Type} (nilErrData : ε) : Result α ε :=
  { Get := [], Post := [], Put := [], Patch := [], Delete := [], ErrData := nilErrData }

/-- The merged result of one trial (`main.go`, lines 114-132): the mutex makes
the critical sections run one after the other, so the merge is a left fold of
`mergeWorker` over the worker indices in the order in which the workers
complete; `Attack index` is the result of the worker started with `index`. -/
def mergeTrial {α ε : Type} (CalculateMethodErrors : ε → ε → ε) (nilErrData : ε)
    (Attack : Nat → Result α ε) (completionOrder : List Nat) : Result α ε :=
  completionOrder.foldl
    (fun result index => mergeWorker CalculateMethodErrors result (Attack index))
    (zeroResult nilErrData)

/-- The worker indices of one trial: `for index := 1; index <= ThreadNum; index++`. -/
def workerIndices (ThreadNum : Nat) : List Nat := List.range' 1 ThreadNum

/-- The sequence `merged` holds exactly the samples of the sequences `parts`:
it is a permutation of their concatenation, and so has as many samples as
all of them together. -/
def mergedFrom {α : Type} (merged : List α) (parts : List (List α)) : Prop :=
  merged.Perm parts.flatten ∧ merged.length = (parts.map List.length).sum

instance {α : Type} [DecidableEq α] (merged : List α) (parts : List (List α)) :
    Decidable (mergedFrom merged parts) := by
  unfold mergedFrom; infer_instance

/-! ## Go library functions used by validation.go -/

/-- The function `strings.HasPrefix`. -/
def HasPrefix (s pre : String) : Bool := pre.toList.isPrefixOf s.toList

/-- The function `strings.Contains`. -/
def Contains (s substr : String) : Bool :=
  s.toList.tails.any fun t => substr.toList.isPrefixOf t

/-- An ASCII decimal digit. -/
def isDigit (ch : Char) : Bool := decide (48 ≤ ch.toNat ∧ ch.toNat ≤ 57)

/-- The value of a sequence of decimal digits. -/
def digitsValue (ds : List Char) : Nat :=
  ds.foldl (fun n ch => n * 10 + (ch.toNat - 48)) 0

/-- The function `strconv.Atoi` on a 64-bit platform: an optional sign followed
by one or more decimal digits, the value lying in the `int` range; `none` is
a syntax or range error. -/
def Atoi (s : String) : Option Int :=
  let cs := s.toList
  let neg : Bool := decide (cs.head? = some '-')
  let ds := if cs.head? = some '-' ∨ cs.head? = some '+' then cs.tail else cs
  if ds = [] ∨ ¬ ds.all isDigit then none
  else if neg then
    (if digitsValue ds ≤ 2 ^ 63 then some (-(digitsValue ds : Int)) else none)
  else
    (if digitsValue ds < 2 ^ 63 then some (digitsValue ds : Int) else none)

/-- The function `strconv.ParseBool`. -/
def ParseBool (str : String) : Option Bool :=
  if str ∈ ["1", "t", "T", "TRUE", "true", "True"] then some true
  else if str ∈ ["0", "f", "F", "FALSE", "false", "False"] then some false
  else none

/-- The representative of a rune under Unicode simple case folding, for the
folding orbits that contain an ASCII letter: an ASCII capital folds to its
small letter, U+017F (long s) to `s` and U+212A (Kelvin sign) to `k`; every
other rune is left alone. -/
def foldRune (ch : Char) : Char :=
  if 65 ≤ ch.toNat ∧ ch.toNat ≤ 90 then Char.ofNat (ch.toNat + 32)
  else if ch.toNat = 0x17F then 's'
  else if ch.toNat = 0x212A then 'k'
  else ch

/-- The function `strings.EqualFold` when one argument is ASCII, as at both
call sites of `validation.go` (the literals `"true"` and `"false"`): the two
strings have as many runes and agree rune by rune up to simple case folding. -/
def EqualFold (s t : String) : Bool :=
  decide (s.toList.map foldRune = t.toList.map foldRune)

/-- The two uses `validation.go` makes of `json.Unmarshal`, which is not part
of the repository: decoding into a `map[string]int` (the entries of the map,
or `none` on error) and decoding into a `map[string]interface{}` (whether it
returns no error).  Returning no error is not the same as the input being a
JSON object: `json.Unmarshal` also returns no error for the JSON literal
`null`, leaving the map as it was. -/
structure Json where
  unmarshalIntMap : String → Option (List (String × Int))
  unmarshalObject : String → Bool

/-- A value of Go's `int` (64 bits, two's complement). -/
def inInt64 (x : Int) : Prop := -2 ^ 63 ≤ x ∧ x < 2 ^ 63

instance (x : Int) : Decidable (inInt64 x) := by unfold inInt64; infer_instance

/-- Reduction of an integer into the `int` range, as Go's `+` does on
overflow. -/
def wrapInt64 (x : Int) : Int := (x + 2 ^ 63) % 2 ^ 64 - 2 ^ 63

/-! ## validation.go -/

/-- The list `allowedHttpMethod` of `validation.go`. -/
def allowedHttpMethod : List String :=
  [MethodGet, MethodPatch, MethodPut, MethodPost, MethodDelete]

/-- Validate empty. -/
def validateEmpty (data : String) : Bool :=
  if data = "" then true else false

/-- Validate TARGET_URL env. -/
def validateTargetUrl (getenv : String → String) : Option String :=
  let env := getenv EnvTargetUrl
  if validateEmpty env then
    some ("Environment valiable " ++ EnvTargetUrl ++ " is required.")
  else if !HasPrefix env "http" || !HasPrefix env "https" then
    some ("Environment valiable " ++ EnvTargetUrl ++ " has only http or https protocol.")
  else none

/-- Validate HTTP_HEADERS env. -/
def validateHttpHeaders (json : Json) (getenv : String → String) : Option String :=
  let env := getenv EnvHttpHeaders
  if validateEmpty env then
    some ("Environment valiable " ++ EnvHttpHeaders ++ " is required.")
  else if !json.unmarshalObject env then
    some ("Environment valiable " ++ EnvHttpHeaders ++ " not hashmap structure.")
  else none

/-- The loop `for _, v := range percentages { totalPercent = totalPercent + v }`
over the entries of the decoded map, in `int` arithmetic. -/
def totalPercent (percentages : List (String × Int)) : Int :=
  percentages.foldl (fun total kv => wrapInt64 (total + kv.2)) 0

/-- Validate REQ_HTTP_METHOD_RATIO env. -/
def validateReqHttpMethodRatio (json : Json) (getenv : String → String) : Option String :=
  let env := getenv EnvReqHttpMethodRatio
  if validateEmpty env then
    some ("Environment valiable " ++ EnvReqHttpMethodRatio ++ " is required.")
  else
    match json.unmarshalIntMap env with
    | none =>
      some ("Environment valiable " ++ EnvReqHttpMethodRatio ++ " not hashmap structure.")
    | some percentages =>
      if totalPercent percentages ≠ 10 then
        some ("Environment valiable " ++ EnvReqHttpMethodRatio ++ " requires percentage of 10.")
      else none

/-- Validate HTTP_REQ_BODY env. -/
def validateHttpRequestBody (json : Json) (getenv : String → String) : Option String :=
  let env := getenv EnvHttpRequestBody
  let ratio := getenv EnvReqHttpMethodRatio
  if Contains ratio MethodPost || Contains ratio MethodPut || Contains ratio MethodPatch then
    if validateEmpty env then
      some ("Environment valiable " ++ EnvHttpRequestBody ++ " is required.")
    else if !json.unmarshalObject env then
      some ("Environment valiable " ++ EnvHttpRequestBody ++ " not hashmap structure.")
    else none
  else none

/-- Validate THREAD_NUM env. -/
def validateThreadNum (getenv : String → String) : Option String :=
  let env := getenv EnvThreadNum
  if validateEmpty env then
    some ("Environment valiable " ++ EnvThreadNum ++ " is required.")
  else if (Atoi env).isNone then
    some ("Environment valiable " ++ EnvThreadNum ++ " is not number.")
  else none

/-- Validate TRIAL_NUM env. -/
def validateTrialNum (getenv : String → String) : Option String :=
  let env := getenv EnvTrialNum
  if validateEmpty env then
    some ("Environment valiable " ++ EnvTrialNum ++ " is required.")
  else if (Atoi env).isNone then
    some ("Environment valiable " ++ EnvTrialNum ++ " is not number.")
  else none

/-- Validate PERMANENT env (optional). -/
def validatePermanent (getenv : String → String) : Option String :=
  let env := getenv EnvPermanent
  if validateEmpty env then none
  else if !EqualFold env "true" || !EqualFold env "false" then
    some ("Environment valiable " ++ EnvPermanent ++ " is true or false.")
  else none

/-- Validate SLACK_NOTIFY_THRESHOLD_LATENCY_MILLIS env (optional). -/
def validateSlackNotifyThreshHoldLatencyMillis (getenv : String → String) : Option String :=
  let env := getenv EnvSlackNotifyThreshHoldLatencyMillis
  if validateEmpty env then none
  else if (Atoi env).isNone then
    some ("Environment valiable " ++ EnvSlackNotifyThreshHoldLatencyMillis ++ " is not number.")
  else none

/-- Validate SLACK_NOTIFY_THRESHOLD_RPS env (optional). -/
def validateSlackNotifyThreshHoldRps (getenv : String → String) : Option String :=
  let env := getenv EnvSlackNotifyThreshHoldRps
  if validateEmpty env then none
  else if (Atoi env).isNone then
    some ("Environment valiable " ++ EnvSlackNotifyThreshHoldRps ++ " is not number.")
  else none

/-- Validate ENABLE_ALERT, SLACK_NOTIFY_THRESHOLD_LATENCY_MILLIS and
SLACK_NOTIFY_THRESHOLD_RPS env (optional). -/
def validateAlert (getenv : String → String) : Option String :=
  let env := getenv EnvEnableAlert
  if validateEmpty env then none
  else
    match ParseBool env with
    | none => some ("Environment valiable " ++ EnvEnableAlert ++ " is true or false.")
    | some isEnable =>
      if !isEnable then none
      else
        let latencyErr := validateSlackNotifyThreshHoldLatencyMillis getenv
        let rpsErr := validateSlackNotifyThreshHoldRps getenv
        if latencyErr.isSome && rpsErr.isSome then
          some ("Environment valiable " ++ EnvSlackNotifyThreshHoldLatencyMillis ++ " or " ++
            EnvSlackNotifyThreshHoldRps ++ " is required.")
        else none

/-- One `if err := ...; err != nil { errs = append(errs, err) }` step. -/
def appendErr (errs : List String) (err : Option String) : List String :=
  match err with
  | some e => errs ++ [e]
  | none => errs

/-- The function `ValidateEnv`: the eight validators are run one after the
other and each error is appended to `errs`, which starts as `nil`. -/
def ValidateEnv (json : Json) (getenv : String → String) : List String :=
  let errs : List String := []
  let errs := appendErr errs (validateTargetUrl getenv)
  let errs := appendErr errs (validateReqHttpMethodRatio json getenv)
  let errs := appendErr errs (validateHttpHeaders json getenv)
  let errs := appendErr errs (validateHttpRequestBody json getenv)
  let errs := appendErr errs (validateThreadNum getenv)
  let errs := appendErr errs (validateTrialNum getenv)
  let errs := appendErr errs (validatePermanent getenv)
  let errs := appendErr errs (validateAlert getenv)
  errs

/-- The results of the eight validators, in the order `ValidateEnv` runs them. -/
def validatorResults (json : Json) (getenv : String → String) : List (Option String) :=
  [validateTargetUrl getenv, validateReqHttpMethodRatio json getenv,
   validateHttpHeaders json getenv, validateHttpRequestBody json getenv,
   validateThreadNum getenv, validateTrialNum getenv,
   validatePermanent getenv, validateAlert getenv]

/-! ## main.go: main -/

/-- The goroutines of one trial, run under an arbitrary scheduler.  Each
goroutine `go func(index)` first calls `client.Attack(index)` and then, holding
the mutex, merges its data.  `waiting` are the goroutines that have not called
`Attack` yet, `attacked` those that have and have not merged yet.  At every
step the scheduler picks one of the `waiting.length + attacked.length` enabled
goroutines (the head of `choices`, reduced modulo their number) and that
goroutine takes its next step; the run ends when no goroutine is left, which
is when `wg.Wait()` returns.  The first argument bounds the number of steps. -/
def runWorkers : Nat → List Nat → List Nat → List Nat → List Event
  | 0, _, _, _ => []
  | fuel + 1, choices, waiting, attacked =>
    let k := choices.headD 0 % (waiting.length + attacked.length)
    match waiting[k]? with
    | some index =>
      Event.attack index ::
        runWorkers fuel choices.tail (waiting.erase index) (attacked ++ [index])
    | none =>
      match attacked[k - waiting.length]? with
      | some index =>
        Event.merge index :: runWorkers fuel choices.tail waiting (attacked.erase index)
      | none => []

/-- The worker phase of one trial (`main.go`, lines 117-132): the goroutines
for `index := 1; index <= ThreadNum; index++`, run until `wg.Wait()` returns;
every goroutine takes two steps. -/
def trialWorkers (ThreadNum : Nat) (choices : List Nat) : List Event :=
  runWorkers (2 * ThreadNum) choices (workerIndices ThreadNum) []

/-- The body of the trial loop for trial `i` (`main.go`, lines 114-142): the
worker phase, then `fmt.Println()`, the five `CalculatePerTrial` calls and
`time.Sleep(1 * time.Second)`. -/
def benchmarkTrial (ThreadNum : Nat) (choices : List Nat) (i : Nat) : List Event :=
  trialWorkers ThreadNum choices ++
    [Event.println "",
     Event.calculatePerTrial MethodGet i,
     Event.calculatePerTrial MethodPost i,
     Event.calculatePerTrial MethodPut i,
     Event.calculatePerTrial MethodPatch i,
     Event.calculatePerTrial MethodDelete i,
     Event.sleep 1]

/-- The function `main`.  `runtime` is the value of `NewRuntimeInfo()`,
`scheduler i` the choices of the goroutine scheduler during trial `i`,
`startTime` and `endTime` the Unix times read before and after the loop, and
`calculator` the state of the calculator when the alert phase starts.  A loop
`for i := 1; i <= n; i++` is the list `1, ..., n` (empty for `n < 1`), which is
exact as long as `n` is below the largest `int`. -/
def main {σ : Type} (json : Json) (getenv : String → String) (runtime : RuntimeInfo)
    (scheduler : Nat → List Nat) (startTime endTime : Int)
    (IsOverThreshHold : σ → PercentileKind → Int → String → Bool × σ)
    (calculator : σ) : List Event :=
  let errs := ValidateEnv json getenv
  if errs ≠ [] then
    errs.map Event.println ++ [Event.exit 1]
  else
    [Event.warmup,
     Event.println ("Start benchmarking. time = " ++ toString startTime ++ "\n")] ++
    ((List.range' 1 runtime.TrialNum.toNat).flatMap fun i =>
      benchmarkTrial runtime.ThreadNum.toNat (scheduler i) i) ++
    [Event.println ("End benchmarking. time = " ++ toString endTime),
     Event.generateCharts,
     Event.output] ++
    alertPhase IsOverThreshHold runtime calculator

/-- The worker indices passed to `Attack`, in trace order. -/
def attackIndices (trace : List Event) : List Nat :=
  trace.filterMap fun e =>
    match e with
    | .attack index => some index
    | _ => none

/-- The worker indices of the merges, in trace order. -/
def mergeIndices (trace : List Event) : List Nat :=
  trace.filterMap fun e =>
    match e with
    | .merge index => some index
    | _ => none

/-- Whether an event is a step of a worker goroutine. -/
def Event.isWorkerStep : Event → Bool
  | .attack _ => true
  | .merge _ => true
  | _ => false

/-- Whether an event is a call of the alert phase. -/
def Event.isAlertEvent : Event → Bool
  | .println _ => true
  | .isOverThreshHold _ _ _ => true
  | .notifyAlert _ _ _ => true
  | _ => false

/-- Whether an event is a `Warmup` call. -/
def Event.isWarmup : Event → Bool
  | .warmup => true
  | _ => false

/-- Whether an event is a `time.Sleep` call. -/
def Event.isSleep : Event → Bool
  | .sleep _ => true
  | _ => false

/-- Whether an event is a `CalculatePerTrial` call. -/
def Event.isCalculatePerTrial : Event → Bool
  | .calculatePerTrial _ _ => true
  | _ => false

/-! ## Worked examples: a calculator and two configurations -/

/-- The average latency per method, in milliseconds, of the example run. -/
def exampleAvgLatency (method : String) : Int :=
  if method = "GET" then 40
  else if method = "PUT" then 80
  else if method = "POST" then 90
  else 0

/-- The requests per second per method of the example run. -/
def exampleRps (method : String) : Int :=
  if method = "POST" then 15 else 25

/-- Modelled from the spec: `IsOverThreshHold` is declared outside `src/`; the
spec (4.5) says a latency kind is over the threshold when the metric is
greater than it and the RPS kind when the metric is less than it.  Here on
the metrics of the example run. -/
def exampleIsOverThreshHold : PercentileKind → Int → String → Bool
  | PercentileKind.PercentileAvg, threshold, method =>
    decide (threshold < exampleAvgLatency method)
  | PercentileKind.Rps, threshold, method => decide (exampleRps method < threshold)

/-- Alerting enabled with a latency threshold of 50 ms and an RPS threshold
of 20. -/
def exampleRuntime : RuntimeInfo :=
  { TrialNum := 2
    ThreadNum := 2
    EnableAlert := true
    SlackNotifyThreshHoldLatencyMillis := 50
    SlackNotifyThreshHoldRps := 20
    SlackWebHookUrl := "https://hooks.slack.com/services/T0/B0/X"
    SlackChannel := "#bench" }

/-- Alerting enabled with an RPS threshold of 20 only. -/
def rpsOnlyRuntime : RuntimeInfo :=
  { TrialNum := 2
    ThreadNum := 2
    EnableAlert := true
    SlackNotifyThreshHoldLatencyMillis := 0
    SlackNotifyThreshHoldRps := 20
    SlackWebHookUrl := "https://hooks.slack.com/services/T0/B0/X"
    SlackChannel := "#bench" }

/-- The result of worker `index` in the example trial: samples are numbered
`100 * index + k`; one error on PUT per worker. -/
def exampleAttack (index : Nat) : Result Nat Nat :=
  { Get := [100 * index + 1, 100 * index + 2]
    Post := [100 * index + 3]
    Put := []
    Patch := [100 * index + 4]
    Delete := [100 * index + 5, 100 * index + 6, 100 * index + 7]
    ErrData := 1 }

/-! ## Worked examples: environments and JSON documents -/

/-- The function `os.Getenv` over an environment given as a list of
`NAME=value` pairs: the value of the first pair with that name, `""` when the
variable is not set. -/
def getenvOf (environ : List (String × String)) : String → String :=
  fun name => (environ.lookup name).getD ""

/-- The ratio `{"GET": 10}`. -/
def ratioGetOnly : String := "\x7b\"GET\": 10\x7d"

/-- The ratio `{"POST": 4, "GET": 6}` of the comment on `EnvReqHttpMethodRatio`. -/
def ratioPostGet : String := "\x7b\"POST\": 4, \"GET\": 6\x7d"

/-- The ratio `{"FOO": 10}`, whose only key is not an HTTP method. -/
def ratioFoo : String := "\x7b\"FOO\": 10\x7d"

/-- A ratio whose weights are `int` values with mathematical sum `2^64 + 10`. -/
def ratioOverflow : String :=
  "\x7b\"GET\": 9223372036854775807, \"DELETE\": 9223372036854775807, \"PUT\": 12\x7d"

/-- The ratio `{"GET": 15, "DELETE": -5}`, with a negative weight and one
above 10. -/
def ratioNegative : String := "\x7b\"GET\": 15, \"DELETE\": -5\x7d"

/-- The headers `{"Content-Type": "application/json"}`. -/
def headersJson : String := "\x7b\"Content-Type\": \"application/json\"\x7d"

/-- The request body `{"email": "test@gmail.com"}`. -/
def bodyJson : String := "\x7b\"email\": \"test@gmail.com\"\x7d"

/-- A decoder that agrees with `json.Unmarshal` on the JSON documents of the
worked examples, the literal `null` among them (no error, the map stays
empty), and reports an error on every other input. -/
def exampleJson : Json :=
  { unmarshalIntMap := fun data =>
      if data = ratioGetOnly then some [("GET", 10)]
      else if data = ratioPostGet then some [("POST", 4), ("GET", 6)]
      else if data = ratioFoo then some [("FOO", 10)]
      else if data = ratioOverflow then
        some [("GET", 9223372036854775807), ("DELETE", 9223372036854775807), ("PUT", 12)]
      else if data = ratioNegative then some [("GET", 15), ("DELETE", -5)]
      else if data = "null" then some []
      else none
    unmarshalObject := fun data =>
      decide (data = headersJson ∨ data = bodyJson ∨ data = "null") }

/-- An environment with the required variables only, reading its ratio,
thread count and trial count from the arguments. -/
def exampleEnviron (ratio threadNum trialNum : String) : List (String × String) :=
  [(EnvTargetUrl, "https://example.com"),
   (EnvHttpHeaders, headersJson),
   (EnvReqHttpMethodRatio, ratio),
   (EnvThreadNum, threadNum),
   (EnvTrialNum, trialNum)]

/-- The example environment with alerting enabled and the latency threshold
set to `abc`, which is not a number; the RPS threshold is not set. -/
def malformedThresholdEnviron : List (String × String) :=
  exampleEnviron ratioGetOnly "2" "5" ++
    [(EnvEnableAlert, "true"), (EnvSlackNotifyThreshHoldLatencyMillis, "abc")]

/-- The example environment with a GET-only ratio and a request body that is
not JSON. -/
def badBodyEnviron : List (String × String) :=
  exampleEnviron ratioGetOnly "2" "5" ++ [(EnvHttpRequestBody, "not json")]

/-- The example environment with the ratio `{"POST": 4, "GET": 6}` and the
request body `null`, which is not a JSON object but which `json.Unmarshal`
decodes into a map without error. -/
def nullBodyEnviron : List (String × String) :=
  exampleEnviron ratioPostGet "2" "5" ++ [(EnvHttpRequestBody, "null")]

/-- The example environment with the ratio `{"POST": 4, "GET": 6}` and a JSON
request body. -/
def postBodyEnviron : List (String × String) :=
  exampleEnviron ratioPostGet "2" "5" ++ [(EnvHttpRequestBody, bodyJson)]

/-- A scheduler for the worked examples: in trial 1 the second enabled
goroutine is picked first, in the other trials the first one. -/
def exampleScheduler (i : Nat) : List Nat :=
  if i = 1 then [1, 0, 1, 0] else [0, 0, 0, 0]

/-! ## Theorems: the alert phase -/

theorem scanMethods_notifyCount {σ : Type}
    (f : σ → PercentileKind → Int → String → Bool × σ) (rt : RuntimeInfo)
    (qk : PercentileKind) (th : Int) (nk : PercentileKind) (ms : List String) (s : σ) :
    notifyCount (scanMethods f rt qk th nk ms s).1 =
      if (scanMethods f rt qk th nk ms s).2.1 then 1 else 0 := by
  induction ms generalizing s with
  | nil => simp [scanMethods, notifyCount]
  | cons m rest ih =>
    unfold scanMethods
    rcases h : f s qk th m with ⟨b, s'⟩
    cases b
    · have := ih s'
      simp only [notifyCount] at this ⊢
      simpa [Event.isNotify] using this
    · simp [notifyCount, Event.isNotify]

theorem notifyCount_append (a b : List Event) :
    notifyCount (a ++ b) = notifyCount a + notifyCount b := by
  simp [notifyCount, List.countP_append]

theorem notifyCount_println (msg : String) : notifyCount [Event.println msg] = 0 := by
  simp [notifyCount, Event.isNotify]

/-- The trace of the alert phase when alerting is enabled, by cases on the
outcome of the latency loop. -/
theorem alertPhase_enabled {σ : Type}
    (f : σ → PercentileKind → Int → String → Bool × σ) (rt : RuntimeInfo) (c : σ)
    (hEnable : rt.EnableAlert = true) :
    alertPhase f rt c =
      if rt.SlackNotifyThreshHoldLatencyMillis ≠ 0 then
        let r1 := scanMethods f rt PercentileKind.PercentileAvg
          rt.SlackNotifyThreshHoldLatencyMillis PercentileKind.PercentileAvg allowedHttpMethods c
        if r1.2.1 then Event.println "\nCheck alert threshold" :: r1.1
        else if rt.SlackNotifyThreshHoldRps ≠ 0 then
          Event.println "\nCheck alert threshold" :: (r1.1 ++
            (scanMethods f rt PercentileKind.Rps rt.SlackNotifyThreshHoldRps
              PercentileKind.PercentileAvg allowedHttpMethods r1.2.2).1)
        else Event.println "\nCheck alert threshold" :: r1.1
      else if rt.SlackNotifyThreshHoldRps ≠ 0 then
        Event.println "\nCheck alert threshold" ::
          (scanMethods f rt PercentileKind.Rps rt.SlackNotifyThreshHoldRps
            PercentileKind.PercentileAvg allowedHttpMethods c).1
      else [Event.println "\nCheck alert threshold"] := by
  unfold alertPhase
  simp only [hEnable, if_true]
  by_cases hL : rt.SlackNotifyThreshHoldLatencyMillis = 0
  · simp [hL]
  · simp only [ne_eq, hL, not_false_eq_true, if_true]
    split <;> (try split) <;> simp

/-- C1: whatever the configuration and however `IsOverThreshHold` behaves (it
may even change the calculator between calls), the alert phase calls
`NotifyAlert` at most once. -/
theorem alertPhase_notifies_at_most_once {σ : Type}
    (IsOverThreshHold : σ → PercentileKind → Int → String → Bool × σ)
    (runtime : RuntimeInfo) (calculator : σ) :
    notifyCount (alertPhase IsOverThreshHold runtime calculator) ≤ 1 := by
  by_cases hEnable : runtime.EnableAlert = true
  · rw [alertPhase_enabled _ _ _ hEnable]
    have hcons : ∀ t : List Event,
        notifyCount (Event.println "\nCheck alert threshold" :: t) = notifyCount t := by
      intro t; simp [notifyCount, Event.isNotify]
    have hscan := scanMethods_notifyCount IsOverThreshHold runtime
    split
    · simp only []
      split
      · rename_i h1
        rw [hcons, hscan, h1]; simp
      · rename_i h1
        split
        · rw [hcons, notifyCount_append, hscan, hscan, if_neg h1]
          split <;> simp
        · rw [hcons, hscan]; simp [h1]
    · split
      · rw [hcons, hscan]; split <;> simp
      · simp [notifyCount, Event.isNotify]
  · simp [alertPhase, hEnable, notifyCount]

/-- A read-only scan in which no method is over the threshold queries every
method and does not return. -/
theorem scanMethods_readOnly_none (over : PercentileKind → Int → String → Bool)
    (rt : RuntimeInfo) (qk : PercentileKind) (th : Int) (nk : PercentileKind)
    (ms : List String) (hnone : ∀ m ∈ ms, over qk th m = false) :
    scanMethods (readOnly over) rt qk th nk ms () =
      (ms.map (Event.isOverThreshHold qk th), false, ()) := by
  induction ms with
  | nil => rfl
  | cons m rest ih =>
    have hm : over qk th m = false := hnone m (List.mem_cons_self _ _)
    have hrest := ih fun x hx => hnone x (List.mem_cons_of_mem _ hx)
    simp [scanMethods, readOnly, hm, hrest]

/-- A read-only scan stops at the first method over the threshold. -/
theorem scanMethods_readOnly_first (over : PercentileKind → Int → String → Bool)
    (rt : RuntimeInfo) (qk : PercentileKind) (th : Int) (nk : PercentileKind)
    (pre : List String) (first : String) (post : List String)
    (hpre : ∀ m ∈ pre, over qk th m = false) (hfirst : over qk th first = true) :
    scanMethods (readOnly over) rt qk th nk (pre ++ first :: post) () =
      (pre.map (Event.isOverThreshHold qk th) ++
        [Event.isOverThreshHold qk th first,
         Event.notifyAlert rt.SlackWebHookUrl rt.SlackChannel nk], true, ()) := by
  induction pre with
  | nil => simp [scanMethods, readOnly, hfirst]
  | cons m rest ih =>
    have hm : over qk th m = false := hpre m (List.mem_cons_self _ _)
    have hrest := ih fun x hx => hpre x (List.mem_cons_of_mem _ hx)
    simp [scanMethods, readOnly, hm] at hrest ⊢
    simp [hrest]

/-- A list with an element satisfying `p` splits at the first such element. -/
theorem exists_first_split (p : String → Bool) (ms : List String)
    (h : ∃ m ∈ ms, p m = true) :
    ∃ pre first post, ms = pre ++ first :: post ∧ (∀ m ∈ pre, p m = false) ∧
      p first = true := by
  induction ms with
  | nil => simp at h
  | cons a rest ih =>
    by_cases ha : p a = true
    · exact ⟨[], a, rest, rfl, by simp, ha⟩
    · have hrest : ∃ m ∈ rest, p m = true := by
        obtain ⟨m, hm, hp⟩ := h
        rcases List.mem_cons.mp hm with rfl | hm'
        · exact absurd hp ha
        · exact ⟨m, hm', hp⟩
      obtain ⟨pre, first, post, hsplit, hpre, hfirst⟩ := ih hrest
      refine ⟨a :: pre, first, post, by simp [hsplit], ?_, hfirst⟩
      intro m hm
      rcases List.mem_cons.mp hm with rfl | hm'
      · simpa using ha
      · exact hpre m hm'

theorem queriedMethods_append (k : PercentileKind) (a b : List Event) :
    queriedMethods k (a ++ b) = queriedMethods k a ++ queriedMethods k b := by
  simp [queriedMethods, List.filterMap_append]

theorem queriedMethods_map_same (k : PercentileKind) (th : Int) (ms : List String) :
    queriedMethods k (ms.map (Event.isOverThreshHold k th)) = ms := by
  induction ms with
  | nil => rfl
  | cons m rest ih =>
    simp only [queriedMethods, List.map_cons, List.filterMap_cons] at ih ⊢
    simp [ih]

theorem queriedMethods_map_other (k k' : PercentileKind) (hk : k' ≠ k) (th : Int)
    (ms : List String) :
    queriedMethods k (ms.map (Event.isOverThreshHold k' th)) = [] := by
  induction ms with
  | nil => rfl
  | cons m rest ih =>
    simp only [queriedMethods, List.map_cons, List.filterMap_cons] at ih ⊢
    simp [ih, hk]

theorem notifyCount_map_query (k : PercentileKind) (th : Int) (ms : List String) :
    notifyCount (ms.map (Event.isOverThreshHold k th)) = 0 := by
  induction ms with
  | nil => rfl
  | cons m rest ih =>
    simp only [notifyCount, List.map_cons] at ih ⊢
    simp [List.countP_cons, ih, Event.isNotify]

/-- C2: with alerting enabled, a non-zero latency threshold and some method over
it, the alert phase queries `IsOverThreshHold` for the latency kind on the
methods in the order GET, PUT, POST, PATCH, DELETE up to and including the
first breaching method, then sends exactly one notification and stops: the
RPS kind is never queried. -/
theorem alertPhase_latency_breach_stops_at_first
    (over : PercentileKind → Int → String → Bool) (runtime : RuntimeInfo)
    (hEnable : runtime.EnableAlert = true)
    (hLatency : runtime.SlackNotifyThreshHoldLatencyMillis ≠ 0)
    (hBreach : ∃ m ∈ allowedHttpMethods,
      over PercentileKind.PercentileAvg runtime.SlackNotifyThreshHoldLatencyMillis m = true) :
    allowedHttpMethods = ["GET", "PUT", "POST", "PATCH", "DELETE"] ∧
    ∃ pre first post,
      allowedHttpMethods = pre ++ first :: post ∧
      (∀ m ∈ pre,
        over PercentileKind.PercentileAvg runtime.SlackNotifyThreshHoldLatencyMillis m = false) ∧
      over PercentileKind.PercentileAvg runtime.SlackNotifyThreshHoldLatencyMillis first = true ∧
      alertPhase (readOnly over) runtime () =
        Event.println "\nCheck alert threshold" ::
          (pre.map (Event.isOverThreshHold PercentileKind.PercentileAvg
              runtime.SlackNotifyThreshHoldLatencyMillis) ++
            [Event.isOverThreshHold PercentileKind.PercentileAvg
              runtime.SlackNotifyThreshHoldLatencyMillis first,
             Event.notifyAlert runtime.SlackWebHookUrl runtime.SlackChannel
              PercentileKind.PercentileAvg]) ∧
      queriedMethods PercentileKind.PercentileAvg (alertPhase (readOnly over) runtime ()) =
        pre ++ [first] ∧
      notifyCount (alertPhase (readOnly over) runtime ()) = 1 ∧
      queriedMethods PercentileKind.Rps (alertPhase (readOnly over) runtime ()) = [] := by
  refine ⟨rfl, ?_⟩
  obtain ⟨pre, first, post, hsplit, hpre, hfirst⟩ := exists_first_split
    (over PercentileKind.PercentileAvg runtime.SlackNotifyThreshHoldLatencyMillis)
    allowedHttpMethods hBreach
  have htrace : alertPhase (readOnly over) runtime () =
      Event.println "\nCheck alert threshold" ::
        (pre.map (Event.isOverThreshHold PercentileKind.PercentileAvg
            runtime.SlackNotifyThreshHoldLatencyMillis) ++
          [Event.isOverThreshHold PercentileKind.PercentileAvg
            runtime.SlackNotifyThreshHoldLatencyMillis first,
           Event.notifyAlert runtime.SlackWebHookUrl runtime.SlackChannel
            PercentileKind.PercentileAvg]) := by
    rw [alertPhase_enabled _ _ _ hEnable, if_pos hLatency, hsplit,
      scanMethods_readOnly_first over runtime _ _ _ pre first post hpre hfirst]
    simp
  refine ⟨pre, first, post, hsplit, hpre, hfirst, htrace, ?_, ?_, ?_⟩
  · rw [htrace]
    have h := queriedMethods_append PercentileKind.PercentileAvg
      [Event.println "\nCheck alert threshold"]
      (pre.map (Event.isOverThreshHold PercentileKind.PercentileAvg
            runtime.SlackNotifyThreshHoldLatencyMillis) ++
          [Event.isOverThreshHold PercentileKind.PercentileAvg
            runtime.SlackNotifyThreshHoldLatencyMillis first,
           Event.notifyAlert runtime.SlackWebHookUrl runtime.SlackChannel
            PercentileKind.PercentileAvg])
    rw [List.singleton_append] at h
    rw [h, queriedMethods_append, queriedMethods_map_same]
    simp [queriedMethods]
  · rw [htrace]
    have h := notifyCount_append [Event.println "\nCheck alert threshold"]
      (pre.map (Event.isOverThreshHold PercentileKind.PercentileAvg
            runtime.SlackNotifyThreshHoldLatencyMillis) ++
          [Event.isOverThreshHold PercentileKind.PercentileAvg
            runtime.SlackNotifyThreshHoldLatencyMillis first,
           Event.notifyAlert runtime.SlackWebHookUrl runtime.SlackChannel
            PercentileKind.PercentileAvg])
    rw [List.singleton_append] at h
    rw [h, notifyCount_append, notifyCount_map_query]
    simp [notifyCount, Event.isNotify]
  · rw [htrace]
    have h := queriedMethods_append PercentileKind.Rps
      [Event.println "\nCheck alert threshold"]
      (pre.map (Event.isOverThreshHold PercentileKind.PercentileAvg
            runtime.SlackNotifyThreshHoldLatencyMillis) ++
          [Event.isOverThreshHold PercentileKind.PercentileAvg
            runtime.SlackNotifyThreshHoldLatencyMillis first,
           Event.notifyAlert runtime.SlackWebHookUrl runtime.SlackChannel
            PercentileKind.PercentileAvg])
    rw [List.singleton_append] at h
    rw [h, queriedMethods_append,
      queriedMethods_map_other _ _ (by decide)]
    simp [queriedMethods]

/-- Witness of C2: latency threshold 50 ms, GET at 40 ms and PUT at 80 ms; GET
and PUT are queried, one notification is sent, POST, PATCH and DELETE and the
RPS kind are not queried. -/
theorem alertPhase_latency_breach_stops_at_first_witness :
    exampleRuntime.EnableAlert = true ∧
    exampleRuntime.SlackNotifyThreshHoldLatencyMillis ≠ 0 ∧
    (∃ m ∈ allowedHttpMethods,
      exampleIsOverThreshHold PercentileKind.PercentileAvg
        exampleRuntime.SlackNotifyThreshHoldLatencyMillis m = true) ∧
    (allowedHttpMethods = ["GET", "PUT", "POST", "PATCH", "DELETE"] ∧
    ∃ pre first post,
      allowedHttpMethods = pre ++ first :: post ∧
      (∀ m ∈ pre,
        exampleIsOverThreshHold PercentileKind.PercentileAvg
          exampleRuntime.SlackNotifyThreshHoldLatencyMillis m = false) ∧
      exampleIsOverThreshHold PercentileKind.PercentileAvg
        exampleRuntime.SlackNotifyThreshHoldLatencyMillis first = true ∧
      alertPhase (readOnly exampleIsOverThreshHold) exampleRuntime () =
        Event.println "\nCheck alert threshold" ::
          (pre.map (Event.isOverThreshHold PercentileKind.PercentileAvg
              exampleRuntime.SlackNotifyThreshHoldLatencyMillis) ++
            [Event.isOverThreshHold PercentileKind.PercentileAvg
              exampleRuntime.SlackNotifyThreshHoldLatencyMillis first,
             Event.notifyAlert exampleRuntime.SlackWebHookUrl exampleRuntime.SlackChannel
              PercentileKind.PercentileAvg]) ∧
      queriedMethods PercentileKind.PercentileAvg
          (alertPhase (readOnly exampleIsOverThreshHold) exampleRuntime ()) =
        pre ++ [first] ∧
      notifyCount (alertPhase (readOnly exampleIsOverThreshHold) exampleRuntime ()) = 1 ∧
      queriedMethods PercentileKind.Rps
          (alertPhase (readOnly exampleIsOverThreshHold) exampleRuntime ()) = []) :=
  ⟨rfl, by decide, ⟨"PUT", by decide, by decide⟩,
    alertPhase_latency_breach_stops_at_first exampleIsOverThreshHold exampleRuntime rfl
      (by decide) ⟨"PUT", by decide, by decide⟩⟩

/-- A read-only scan returns exactly when some method is over the threshold. -/
theorem scanMethods_readOnly_returned (over : PercentileKind → Int → String → Bool)
    (rt : RuntimeInfo) (qk : PercentileKind) (th : Int) (nk : PercentileKind)
    (ms : List String) :
    (scanMethods (readOnly over) rt qk th nk ms ()).2.1 = ms.any (over qk th) := by
  induction ms with
  | nil => rfl
  | cons m rest ih =>
    cases hm : over qk th m <;> simp [scanMethods, readOnly, hm] at ih ⊢
    exact ih

/-- A read-only scan queries every method that no breaching method precedes. -/
theorem scanMethods_readOnly_reaches (over : PercentileKind → Int → String → Bool)
    (rt : RuntimeInfo) (qk : PercentileKind) (th : Int) (nk : PercentileKind)
    (pre : List String) (m : String) (post : List String)
    (hpre : ∀ x ∈ pre, over qk th x = false) :
    Event.isOverThreshHold qk th m ∈
      (scanMethods (readOnly over) rt qk th nk (pre ++ m :: post) ()).1 := by
  induction pre with
  | nil => cases hm : over qk th m <;> simp [scanMethods, readOnly, hm]
  | cons a rest ih =>
    have ha : over qk th a = false := hpre a (List.mem_cons_self _ _)
    have hrest := ih fun x hx => hpre x (List.mem_cons_of_mem _ hx)
    simp [scanMethods, readOnly, ha] at hrest ⊢
    exact Or.inr hrest

/-- The number of notifications of the alert phase with a read-only
`IsOverThreshHold`, when alerting is enabled. -/
theorem notifyCount_alertPhase_readOnly (over : PercentileKind → Int → String → Bool)
    (rt : RuntimeInfo) (hEnable : rt.EnableAlert = true) :
    notifyCount (alertPhase (readOnly over) rt ()) =
      if (rt.SlackNotifyThreshHoldLatencyMillis ≠ 0 ∧
            allowedHttpMethods.any
              (over PercentileKind.PercentileAvg rt.SlackNotifyThreshHoldLatencyMillis) = true) ∨
          (rt.SlackNotifyThreshHoldRps ≠ 0 ∧
            allowedHttpMethods.any
              (over PercentileKind.Rps rt.SlackNotifyThreshHoldRps) = true)
      then 1 else 0 := by
  have hcons : ∀ t : List Event,
      notifyCount (Event.println "\nCheck alert threshold" :: t) = notifyCount t := by
    intro t; simp [notifyCount, Event.isNotify]
  have hscan := scanMethods_notifyCount (readOnly over) rt
  have hret := scanMethods_readOnly_returned over rt
  rw [alertPhase_enabled _ _ _ hEnable]
  by_cases hL : rt.SlackNotifyThreshHoldLatencyMillis ≠ 0
  · rw [if_pos hL]
    simp only []
    by_cases h1 : allowedHttpMethods.any
        (over PercentileKind.PercentileAvg rt.SlackNotifyThreshHoldLatencyMillis) = true
    · rw [if_pos (by rw [hret]; exact h1), hcons, hscan, hret, if_pos h1,
        if_pos (Or.inl ⟨hL, h1⟩)]
    · rw [if_neg (by rw [hret]; exact h1)]
      by_cases hR : rt.SlackNotifyThreshHoldRps ≠ 0
      · rw [if_pos hR, hcons, notifyCount_append, hscan, hscan, hret, hret, if_neg h1]
        by_cases h2 : allowedHttpMethods.any
            (over PercentileKind.Rps rt.SlackNotifyThreshHoldRps) = true
        · rw [if_pos h2, if_pos (Or.inr ⟨hR, h2⟩)]
        · rw [if_neg h2, if_neg (by tauto)]
      · rw [if_neg hR, hcons, hscan, hret, if_neg h1, if_neg (by tauto)]
  · rw [if_neg hL]
    by_cases hR : rt.SlackNotifyThreshHoldRps ≠ 0
    · rw [if_pos hR, hcons, hscan, hret]
      by_cases h2 : allowedHttpMethods.any
          (over PercentileKind.Rps rt.SlackNotifyThreshHoldRps) = true
      · rw [if_pos h2, if_pos (Or.inr ⟨hR, h2⟩)]
      · rw [if_neg h2, if_neg (by tauto)]
    · rw [if_neg hR, if_neg (by tauto)]
      simp [notifyCount, Event.isNotify]

/-- C3: a notification is sent if and only if alerting is enabled and either
the latency threshold is non-zero and one of the five methods is over it for
the average-latency kind, or the RPS threshold is non-zero and one of the five
methods is over it for the RPS kind.  In particular, with no latency breach and
a non-zero RPS threshold the RPS scan runs over the five methods: each of them
is queried for the RPS kind unless a method before it already breached. -/
theorem alertPhase_notifies_iff
    (over : PercentileKind → Int → String → Bool) (runtime : RuntimeInfo) :
    (0 < notifyCount (alertPhase (readOnly over) runtime ()) ↔
      runtime.EnableAlert = true ∧
        ((runtime.SlackNotifyThreshHoldLatencyMillis ≠ 0 ∧
            ∃ m ∈ allowedHttpMethods,
              over PercentileKind.PercentileAvg
                runtime.SlackNotifyThreshHoldLatencyMillis m = true) ∨
         (runtime.SlackNotifyThreshHoldRps ≠ 0 ∧
            ∃ m ∈ allowedHttpMethods,
              over PercentileKind.Rps runtime.SlackNotifyThreshHoldRps m = true))) ∧
    (runtime.EnableAlert = true →
      (runtime.SlackNotifyThreshHoldLatencyMillis = 0 ∨
        ∀ m ∈ allowedHttpMethods,
          over PercentileKind.PercentileAvg
            runtime.SlackNotifyThreshHoldLatencyMillis m = false) →
      runtime.SlackNotifyThreshHoldRps ≠ 0 →
      ∀ pre m post, allowedHttpMethods = pre ++ m :: post →
        (∀ x ∈ pre, over PercentileKind.Rps runtime.SlackNotifyThreshHoldRps x = false) →
        Event.isOverThreshHold PercentileKind.Rps runtime.SlackNotifyThreshHoldRps m ∈
          alertPhase (readOnly over) runtime ()) := by
  constructor
  · by_cases hEnable : runtime.EnableAlert = true
    · rw [notifyCount_alertPhase_readOnly over runtime hEnable]
      simp only [List.any_eq_true, hEnable, true_and]
      split <;> simp_all
    · simp [alertPhase, hEnable, notifyCount]
  · intro hEnable hNoLatency hRps pre m post hsplit hpre
    have hreach := scanMethods_readOnly_reaches over runtime PercentileKind.Rps
      runtime.SlackNotifyThreshHoldRps PercentileKind.PercentileAvg pre m post hpre
    rw [← hsplit] at hreach
    rw [alertPhase_enabled _ _ _ hEnable]
    by_cases hL : runtime.SlackNotifyThreshHoldLatencyMillis ≠ 0
    · have hnone : ∀ x ∈ allowedHttpMethods,
          over PercentileKind.PercentileAvg
            runtime.SlackNotifyThreshHoldLatencyMillis x = false := by
        rcases hNoLatency with h0 | h
        · exact absurd h0 hL
        · exact h
      rw [if_pos hL]
      simp only []
      rw [scanMethods_readOnly_none over runtime _ _ _ _ hnone]
      simp only [Bool.false_eq_true, if_false, if_pos hRps]
      exact List.mem_cons_of_mem _ (List.mem_append_right _ hreach)
    · rw [if_neg hL, if_pos hRps]
      exact List.mem_cons_of_mem _ hreach

/-- Witness of C3: with only the RPS threshold configured (20) and POST at 15
requests per second, GET and PUT do not breach, so POST is queried, and a
notification is sent. -/
theorem alertPhase_notifies_iff_witness :
    rpsOnlyRuntime.EnableAlert = true ∧
    rpsOnlyRuntime.SlackNotifyThreshHoldLatencyMillis = 0 ∧
    rpsOnlyRuntime.SlackNotifyThreshHoldRps ≠ 0 ∧
    allowedHttpMethods = ["GET", "PUT"] ++ "POST" :: ["PATCH", "DELETE"] ∧
    (∀ x ∈ ["GET", "PUT"],
      exampleIsOverThreshHold PercentileKind.Rps rpsOnlyRuntime.SlackNotifyThreshHoldRps x
        = false) ∧
    Event.isOverThreshHold PercentileKind.Rps rpsOnlyRuntime.SlackNotifyThreshHoldRps "POST" ∈
      alertPhase (readOnly exampleIsOverThreshHold) rpsOnlyRuntime () ∧
    0 < notifyCount (alertPhase (readOnly exampleIsOverThreshHold) rpsOnlyRuntime ()) :=
  ⟨rfl, rfl, by decide, rfl, by decide,
    (alertPhase_notifies_iff exampleIsOverThreshHold rpsOnlyRuntime).2 rfl (Or.inl rfl)
      (by decide) ["GET", "PUT"] "POST" ["PATCH", "DELETE"] rfl (by decide),
    (alertPhase_notifies_iff exampleIsOverThreshHold rpsOnlyRuntime).1.mpr
      ⟨rfl, Or.inr ⟨by decide, "POST", by decide, by decide⟩⟩⟩

/-- C4 (evaluation): with only the RPS threshold configured and POST below it,
the notification is caused by an RPS breach, and the kind handed to
`NotifyAlert` is `PercentileAvg`, not `Rps`. -/
theorem alertPhase_rps_breach_notifies_PercentileAvg :
    exampleIsOverThreshHold PercentileKind.Rps 20 "POST" = true ∧
    alertPhase (readOnly exampleIsOverThreshHold) rpsOnlyRuntime () =
      [Event.println "\nCheck alert threshold",
       Event.isOverThreshHold PercentileKind.Rps 20 "GET",
       Event.isOverThreshHold PercentileKind.Rps 20 "PUT",
       Event.isOverThreshHold PercentileKind.Rps 20 "POST",
       Event.notifyAlert "https://hooks.slack.com/services/T0/B0/X" "#bench"
         PercentileKind.PercentileAvg] ∧
    notifiedKinds (alertPhase (readOnly exampleIsOverThreshHold) rpsOnlyRuntime ()) =
      [PercentileKind.PercentileAvg] ∧
    PercentileKind.PercentileAvg ≠ PercentileKind.Rps := by
  decide

/-! ## Theorems: the merge of one trial -/

/-- Each field of the merged result is the concatenation of the workers'
fields in completion order, after what the accumulator held. -/
theorem foldl_mergeWorker {α ε : Type} (cme : ε → ε → ε) (Attack : Nat → Result α ε)
    (order : List Nat) (init : Result α ε) :
    let r := order.foldl (fun result index => mergeWorker cme result (Attack index)) init
    r.Get = init.Get ++ (order.map fun i => (Attack i).Get).flatten ∧
    r.Post = init.Post ++ (order.map fun i => (Attack i).Post).flatten ∧
    r.Put = init.Put ++ (order.map fun i => (Attack i).Put).flatten ∧
    r.Patch = init.Patch ++ (order.map fun i => (Attack i).Patch).flatten ∧
    r.Delete = init.Delete ++ (order.map fun i => (Attack i).Delete).flatten := by
  induction order generalizing init with
  | nil => simp
  | cons i rest ih =>
    have h := ih (mergeWorker cme init (Attack i))
    simp only [List.foldl_cons, List.map_cons, List.flatten_cons] at h ⊢
    obtain ⟨h1, h2, h3, h4, h5⟩ := h
    refine ⟨?_, ?_, ?_, ?_, ?_⟩
    · rw [h1]; simp [mergeWorker]
    · rw [h2]; simp [mergeWorker]
    · rw [h3]; simp [mergeWorker]
    · rw [h4]; simp [mergeWorker]
    · rw [h5]; simp [mergeWorker]

/-- A concatenation taken in a permuted order holds the same samples. -/
theorem mergedFrom_of_perm {α : Type} (field : Nat → List α) (order indices : List Nat)
    (hOrder : order.Perm indices) :
    mergedFrom (order.map field).flatten (indices.map field) := by
  have hperm : (order.map field).flatten.Perm (indices.map field).flatten :=
    (hOrder.map field).flatten
  refine ⟨hperm, ?_⟩
  rw [hperm.length_eq, List.length_flatten]

/-- C5: for every thread count and every order in which the workers complete,
each of the five merged sample sequences of a trial is a permutation of the
concatenation of the workers' sequences for that method, and its length is
the sum of their lengths: no sample is dropped and none is duplicated. -/
theorem mergeTrial_complete {α ε : Type} (CalculateMethodErrors : ε → ε → ε)
    (nilErrData : ε) (Attack : Nat → Result α ε) (ThreadNum : Nat)
    (completionOrder : List Nat)
    (hOrder : completionOrder.Perm (workerIndices ThreadNum)) :
    mergedFrom (mergeTrial CalculateMethodErrors nilErrData Attack completionOrder).Get
      ((workerIndices ThreadNum).map fun index => (Attack index).Get) ∧
    mergedFrom (mergeTrial CalculateMethodErrors nilErrData Attack completionOrder).Post
      ((workerIndices ThreadNum).map fun index => (Attack index).Post) ∧
    mergedFrom (mergeTrial CalculateMethodErrors nilErrData Attack completionOrder).Put
      ((workerIndices ThreadNum).map fun index => (Attack index).Put) ∧
    mergedFrom (mergeTrial CalculateMethodErrors nilErrData Attack completionOrder).Patch
      ((workerIndices ThreadNum).map fun index => (Attack index).Patch) ∧
    mergedFrom (mergeTrial CalculateMethodErrors nilErrData Attack completionOrder).Delete
      ((workerIndices ThreadNum).map fun index => (Attack index).Delete) := by
  obtain ⟨h1, h2, h3, h4, h5⟩ := foldl_mergeWorker CalculateMethodErrors Attack
    completionOrder (zeroResult nilErrData)
  simp only [zeroResult, List.nil_append] at h1 h2 h3 h4 h5
  simp only [mergeTrial, zeroResult]
  rw [h1, h2, h3, h4, h5]
  exact ⟨mergedFrom_of_perm _ _ _ hOrder, mergedFrom_of_perm _ _ _ hOrder,
    mergedFrom_of_perm _ _ _ hOrder, mergedFrom_of_perm _ _ _ hOrder,
    mergedFrom_of_perm _ _ _ hOrder⟩

/-- Witness of C5: three workers completing in the order 3, 1, 2. -/
theorem mergeTrial_complete_witness :
    [3, 1, 2].Perm (workerIndices 3) ∧
    (mergedFrom (mergeTrial (fun a b => a + b) 0 exampleAttack [3, 1, 2]).Get
      ((workerIndices 3).map fun index => (exampleAttack index).Get) ∧
    mergedFrom (mergeTrial (fun a b => a + b) 0 exampleAttack [3, 1, 2]).Post
      ((workerIndices 3).map fun index => (exampleAttack index).Post) ∧
    mergedFrom (mergeTrial (fun a b => a + b) 0 exampleAttack [3, 1, 2]).Put
      ((workerIndices 3).map fun index => (exampleAttack index).Put) ∧
    mergedFrom (mergeTrial (fun a b => a + b) 0 exampleAttack [3, 1, 2]).Patch
      ((workerIndices 3).map fun index => (exampleAttack index).Patch) ∧
    mergedFrom (mergeTrial (fun a b => a + b) 0 exampleAttack [3, 1, 2]).Delete
      ((workerIndices 3).map fun index => (exampleAttack index).Delete)) :=
  ⟨by decide, mergeTrial_complete (fun a b => a + b) 0 exampleAttack 3 [3, 1, 2] (by decide)⟩

/-! ## Theorems: validation.go -/

theorem wrapInt64_add_wrapInt64 (a b : Int) :
    wrapInt64 (wrapInt64 a + b) = wrapInt64 (a + b) := by
  unfold wrapInt64
  omega

theorem wrapInt64_of_inInt64 (x : Int) (h : inInt64 x) : wrapInt64 x = x := by
  unfold inInt64 at h
  unfold wrapInt64
  omega

theorem foldl_wrapInt64 (percentages : List (String × Int)) (a : Int) :
    percentages.foldl (fun total kv => wrapInt64 (total + kv.2)) (wrapInt64 a) =
      wrapInt64 (a + (percentages.map Prod.snd).sum) := by
  induction percentages generalizing a with
  | nil => simp
  | cons kv rest ih =>
    simp only [List.foldl_cons, List.map_cons, List.sum_cons]
    rw [wrapInt64_add_wrapInt64, ih, add_assoc]

/-- The loop of `validateReqHttpMethodRatio` computes the sum of the weights
reduced into the `int` range. -/
theorem totalPercent_eq (percentages : List (String × Int)) :
    totalPercent percentages = wrapInt64 (percentages.map Prod.snd).sum := by
  have h := foldl_wrapInt64 percentages 0
  have h0 : wrapInt64 0 = 0 := by decide
  rw [h0, zero_add] at h
  exact h

/-- C7 (evaluation): the list `allowedHttpMethod` does not contain `FOO`, the
ratio `{"FOO": 10}` decodes to a mapping with the key `FOO`, and
`ValidateEnv` returns no error for an environment with that ratio. -/
theorem ValidateEnv_accepts_unrecognized_method :
    "FOO" ∉ allowedHttpMethod ∧
    exampleJson.unmarshalIntMap
        (getenvOf (exampleEnviron ratioFoo "2" "5") EnvReqHttpMethodRatio) =
      some [("FOO", 10)] ∧
    ValidateEnv exampleJson (getenvOf (exampleEnviron ratioFoo "2" "5")) = [] := by
  decide

/-- C8 (evaluation): `validateTargetUrl` returns an error for the target
`http://example.com`, which begins with `http://`. -/
theorem validateTargetUrl_rejects_http :
    HasPrefix "http://example.com" "http://" = true ∧
    validateTargetUrl (getenvOf [(EnvTargetUrl, "http://example.com")]) =
      some "Environment valiable INPUT_TARGET_URL has only http or https protocol." := by
  decide

/-- C9 (evaluation): `ValidateEnv` returns no error for an environment with
`INPUT_THREAD_NUM=4` and `INPUT_TRIAL_NUM=21`, above the maxima 3 and 20. -/
theorem ValidateEnv_accepts_counts_above_maximum :
    Atoi (getenvOf (exampleEnviron ratioGetOnly "4" "21") EnvThreadNum) = some 4 ∧
    Atoi (getenvOf (exampleEnviron ratioGetOnly "4" "21") EnvTrialNum) = some 21 ∧
    ValidateEnv exampleJson (getenvOf (exampleEnviron ratioGetOnly "4" "21")) = [] := by
  decide

theorem foldl_appendErr (results : List (Option String)) (errs : List String) :
    results.foldl appendErr errs = errs ++ results.filterMap id := by
  induction results generalizing errs with
  | nil => simp
  | cons r rest ih =>
    cases r with
    | none => simp [List.foldl_cons, appendErr, ih]
    | some e => simp [List.foldl_cons, appendErr, ih]

theorem length_filterMap_id (results : List (Option String)) :
    (results.filterMap id).length = results.countP Option.isSome := by
  induction results with
  | nil => rfl
  | cons r rest ih => cases r <;> simp [ih]

/-- C10: `ValidateEnv` runs the eight validators (target URL, method ratio,
headers, request body, thread count, trial count, permanent flag, alert) and
returns, in that order, exactly the errors of those that fail: its length is
the number of failing validators, every error of a failing validator is in
the list whatever the validators before it returned, and the list is empty
(nil) if and only if every validator passes. -/
theorem ValidateEnv_collects_all (json : Json) (getenv : String → String) :
    validatorResults json getenv =
      [validateTargetUrl getenv, validateReqHttpMethodRatio json getenv,
       validateHttpHeaders json getenv, validateHttpRequestBody json getenv,
       validateThreadNum getenv, validateTrialNum getenv,
       validatePermanent getenv, validateAlert getenv] ∧
    ValidateEnv json getenv = (validatorResults json getenv).filterMap id ∧
    (ValidateEnv json getenv).length =
      (validatorResults json getenv).countP Option.isSome ∧
    (∀ e, some e ∈ validatorResults json getenv → e ∈ ValidateEnv json getenv) ∧
    (ValidateEnv json getenv = [] ↔ ∀ r ∈ validatorResults json getenv, r = none) := by
  have hfold : ValidateEnv json getenv =
      (validatorResults json getenv).foldl appendErr [] := rfl
  have heq : ValidateEnv json getenv = (validatorResults json getenv).filterMap id := by
    rw [hfold, foldl_appendErr, List.nil_append]
  refine ⟨rfl, heq, ?_, ?_, ?_⟩
  · rw [heq, length_filterMap_id]
  · intro e he
    rw [heq, List.mem_filterMap]
    exact ⟨some e, he, rfl⟩
  · rw [heq, List.filterMap_eq_nil_iff]
    constructor
    · intro h r hr
      cases r with
      | none => rfl
      | some e => exact absurd (h (some e) hr) (by simp)
    · intro h r hr
      rw [h r hr]
      rfl

/-- Witness of C10: in the empty environment the five required variables are
each reported, in the order of the validators (the request body, the permanent
flag and the alert settings are optional). -/
theorem ValidateEnv_collects_all_witness :
    validatorResults exampleJson (getenvOf []) =
      [some "Environment valiable INPUT_TARGET_URL is required.",
       some "Environment valiable INPUT_REQ_HTTP_METHOD_RATIO is required.",
       some "Environment valiable INPUT_HTTP_HEADERS is required.",
       none,
       some "Environment valiable INPUT_THREAD_NUM is required.",
       some "Environment valiable INPUT_TRIAL_NUM is required.",
       none,
       none] ∧
    ValidateEnv exampleJson (getenvOf []) =
      ["Environment valiable INPUT_TARGET_URL is required.",
       "Environment valiable INPUT_REQ_HTTP_METHOD_RATIO is required.",
       "Environment valiable INPUT_HTTP_HEADERS is required.",
       "Environment valiable INPUT_THREAD_NUM is required.",
       "Environment valiable INPUT_TRIAL_NUM is required."] ∧
    (ValidateEnv exampleJson (getenvOf [])).length = 5 :=
  ⟨by decide,
    (ValidateEnv_collects_all exampleJson (getenvOf [])).2.1.trans (by decide),
    (ValidateEnv_collects_all exampleJson (getenvOf [])).2.2.1.trans (by decide)⟩

/-- C11 (evaluation): `validatePermanent` returns an error for the values
`true`, `false` and `TRUE` of `INPUT_PERMANENT`; only the empty value is
accepted. -/
theorem validatePermanent_rejects_true_and_false :
    validatePermanent (getenvOf [(EnvPermanent, "true")]) =
      some "Environment valiable INPUT_PERMANENT is true or false." ∧
    validatePermanent (getenvOf [(EnvPermanent, "false")]) =
      some "Environment valiable INPUT_PERMANENT is true or false." ∧
    validatePermanent (getenvOf [(EnvPermanent, "TRUE")]) =
      some "Environment valiable INPUT_PERMANENT is true or false." ∧
    validatePermanent (getenvOf []) = none := by
  decide

/-- C12 (evaluation): with `INPUT_ENABLE_ALERT=true` and the latency threshold
set to `abc`, the threshold validator reports that the value is not a number,
but `validateAlert` drops that error and `ValidateEnv` returns no error. -/
theorem ValidateEnv_accepts_malformed_threshold :
    ParseBool (getenvOf malformedThresholdEnviron EnvEnableAlert) = some true ∧
    getenvOf malformedThresholdEnviron EnvSlackNotifyThreshHoldLatencyMillis = "abc" ∧
    Atoi "abc" = none ∧
    validateSlackNotifyThreshHoldLatencyMillis (getenvOf malformedThresholdEnviron) =
      some ("Environment valiable INPUT_SLACK_NOTIFY_THRESHOLD_LATENCY_MILLIS " ++
        "is not number.") ∧
    validateAlert (getenvOf malformedThresholdEnviron) = none ∧
    ValidateEnv exampleJson (getenvOf malformedThresholdEnviron) = [] := by
  decide

/-- `ValidateEnv` returns nil exactly when each of the eight validators does. -/
theorem ValidateEnv_nil_iff (json : Json) (getenv : String → String) :
    ValidateEnv json getenv = [] ↔ ∀ r ∈ validatorResults json getenv, r = none := by
  have hfold : ValidateEnv json getenv =
      (validatorResults json getenv).foldl appendErr [] := rfl
  rw [hfold, foldl_appendErr, List.nil_append, List.filterMap_eq_nil_iff]
  constructor
  · intro h r hr
    cases r with
    | none => rfl
    | some e => exact absurd (h (some e) hr) (by simp)
  · intro h r hr
    rw [h r hr]
    rfl

/-- C13 (counterexample): with the ratio `{"GET": 10}` and the request body
`not json`, which is neither empty nor a JSON object (`json.Unmarshal` returns
an error for it), `ValidateEnv` returns no error. -/
theorem ValidateEnv_accepts_non_json_body :
    ValidateEnv exampleJson (getenvOf badBodyEnviron) = [] ∧
    getenvOf badBodyEnviron EnvHttpRequestBody = "not json" ∧
    ¬ (getenvOf badBodyEnviron EnvHttpRequestBody = "" ∨
        exampleJson.unmarshalObject (getenvOf badBodyEnviron EnvHttpRequestBody) = true) := by
  decide

/-- C13 (amended): for every environment for which `ValidateEnv` returns no
error and whose ratio value contains `POST`, `PUT` or `PATCH`, the request
body is non-empty and `json.Unmarshal` decodes it into a
`map[string]interface{}` without error (as it does for a JSON object, and
also for the literal `null`); when the ratio value contains none of `POST`,
`PUT`, `PATCH` and `DELETE`, `validateHttpRequestBody` does not look at the
body and returns no error. -/
theorem ValidateEnv_body_checked_for_post_put_patch (json : Json)
    (getenv : String → String) :
    (ValidateEnv json getenv = [] →
      (Contains (getenv EnvReqHttpMethodRatio) MethodPost = true ∨
        Contains (getenv EnvReqHttpMethodRatio) MethodPut = true ∨
        Contains (getenv EnvReqHttpMethodRatio) MethodPatch = true) →
      getenv EnvHttpRequestBody ≠ "" ∧
        json.unmarshalObject (getenv EnvHttpRequestBody) = true) ∧
    (Contains (getenv EnvReqHttpMethodRatio) MethodPost = false ∧
        Contains (getenv EnvReqHttpMethodRatio) MethodPut = false ∧
        Contains (getenv EnvReqHttpMethodRatio) MethodPatch = false ∧
        Contains (getenv EnvReqHttpMethodRatio) MethodDelete = false →
      validateHttpRequestBody json getenv = none) := by
  constructor
  · intro hValid hMethods
    have hBody : validateHttpRequestBody json getenv = none :=
      (ValidateEnv_nil_iff json getenv).mp hValid _ (by simp [validatorResults])
    have hCond : (Contains (getenv EnvReqHttpMethodRatio) MethodPost ||
        Contains (getenv EnvReqHttpMethodRatio) MethodPut ||
        Contains (getenv EnvReqHttpMethodRatio) MethodPatch) = true := by
      rcases hMethods with h | h | h <;> simp [h]
    unfold validateHttpRequestBody at hBody
    simp only [hCond, if_true] at hBody
    by_cases hEmpty : getenv EnvHttpRequestBody = ""
    · simp [validateEmpty, hEmpty] at hBody
    · refine ⟨hEmpty, ?_⟩
      cases hObj : json.unmarshalObject (getenv EnvHttpRequestBody)
      · simp [validateEmpty, hEmpty, hObj] at hBody
      · rfl
  · intro hNone
    have hCond : (Contains (getenv EnvReqHttpMethodRatio) MethodPost ||
        Contains (getenv EnvReqHttpMethodRatio) MethodPut ||
        Contains (getenv EnvReqHttpMethodRatio) MethodPatch) = false := by
      simp [hNone.1, hNone.2.1, hNone.2.2.1]
    unfold validateHttpRequestBody
    simp [hCond]

/-- Witness of C13 (amended): the ratio `{"POST": 4, "GET": 6}` with the body
`{"email": "test@gmail.com"}` is accepted, and the body is decoded without
error. -/
theorem ValidateEnv_body_checked_for_post_put_patch_witness :
    ValidateEnv exampleJson (getenvOf postBodyEnviron) = [] ∧
    Contains (getenvOf postBodyEnviron EnvReqHttpMethodRatio) MethodPost = true ∧
    getenvOf postBodyEnviron EnvHttpRequestBody ≠ "" ∧
    exampleJson.unmarshalObject (getenvOf postBodyEnviron EnvHttpRequestBody) = true :=
  ⟨by decide, by decide,
    (ValidateEnv_body_checked_for_post_put_patch exampleJson (getenvOf postBodyEnviron)).1
      (by decide) (Or.inl (by decide))⟩

/-- The ratio `{"POST": 4, "GET": 6}` with the body `null` is accepted as well:
the body is not empty and `json.Unmarshal` returns no error for it, although
`null` is not a JSON object. -/
theorem ValidateEnv_accepts_null_body :
    Contains (getenvOf nullBodyEnviron EnvReqHttpMethodRatio) MethodPost = true ∧
    getenvOf nullBodyEnviron EnvHttpRequestBody = "null" ∧
    exampleJson.unmarshalObject "null" = true ∧
    validateHttpRequestBody exampleJson (getenvOf nullBodyEnviron) = none ∧
    ValidateEnv exampleJson (getenvOf nullBodyEnviron) = [] := by
  decide

/-- C16 (evaluation): with `INPUT_ENABLE_ALERT=true` and both thresholds unset,
`validateAlert` returns no error, and no `... is required.` error is reported
by `ValidateEnv` either. -/
theorem validateAlert_accepts_missing_thresholds :
    ParseBool (getenvOf [(EnvEnableAlert, "true")] EnvEnableAlert) = some true ∧
    getenvOf [(EnvEnableAlert, "true")] EnvSlackNotifyThreshHoldLatencyMillis = "" ∧
    getenvOf [(EnvEnableAlert, "true")] EnvSlackNotifyThreshHoldRps = "" ∧
    validateAlert (getenvOf [(EnvEnableAlert, "true")]) = none ∧
    ValidateEnv exampleJson
      (getenvOf (exampleEnviron ratioGetOnly "2" "5" ++ [(EnvEnableAlert, "true")])) = [] := by
  decide

/-- The validator of the ratio returns no error exactly for a non-empty value
that decodes to weights whose `int` sum is 10. -/
theorem validateReqHttpMethodRatio_eq_none (json : Json) (getenv : String → String) :
    validateReqHttpMethodRatio json getenv = none ↔
      getenv EnvReqHttpMethodRatio ≠ "" ∧
      ∃ percentages, json.unmarshalIntMap (getenv EnvReqHttpMethodRatio) = some percentages ∧
        wrapInt64 (percentages.map Prod.snd).sum = 10 := by
  unfold validateReqHttpMethodRatio
  by_cases hEmpty : getenv EnvReqHttpMethodRatio = ""
  · simp [validateEmpty, hEmpty]
  · cases hParse : json.unmarshalIntMap (getenv EnvReqHttpMethodRatio) with
    | none => simp [validateEmpty, hEmpty, hParse]
    | some percentages => simp [validateEmpty, hEmpty, hParse, totalPercent_eq]

/-- C17 (counterexample): the ratio `{"GET": 15, "DELETE": -5}` is accepted by
`validateReqHttpMethodRatio`, although neither weight lies between 0 and 10. -/
theorem validateReqHttpMethodRatio_accepts_negative_weight :
    exampleJson.unmarshalIntMap
        (getenvOf [(EnvReqHttpMethodRatio, ratioNegative)] EnvReqHttpMethodRatio) =
      some [("GET", 15), ("DELETE", -5)] ∧
    validateReqHttpMethodRatio exampleJson
      (getenvOf [(EnvReqHttpMethodRatio, ratioNegative)]) = none ∧
    ¬ (∀ kv ∈ [("GET", (15 : Int)), ("DELETE", -5)], 0 ≤ kv.2 ∧ kv.2 ≤ 10) := by
  decide

/-- C17 (amended): every method ratio accepted by `validateReqHttpMethodRatio`
whose weights are all non-negative and whose mathematical sum lies in the
`int` range is a split into parts out of 10: each weight is between 0 and 10
inclusive. -/
theorem validateReqHttpMethodRatio_weights_bounded (json : Json)
    (getenv : String → String) (percentages : List (String × Int))
    (hParse : json.unmarshalIntMap (getenv EnvReqHttpMethodRatio) = some percentages)
    (hAccepted : validateReqHttpMethodRatio json getenv = none)
    (hNonNeg : ∀ kv ∈ percentages, 0 ≤ kv.2)
    (hRange : inInt64 (percentages.map Prod.snd).sum) :
    ∀ kv ∈ percentages, 0 ≤ kv.2 ∧ kv.2 ≤ 10 := by
  obtain ⟨_, p, hp, hsum⟩ := (validateReqHttpMethodRatio_eq_none json getenv).mp hAccepted
  rw [hParse] at hp
  cases hp
  rw [wrapInt64_of_inInt64 _ hRange] at hsum
  intro kv hkv
  refine ⟨hNonNeg kv hkv, ?_⟩
  have hle : kv.2 ≤ (percentages.map Prod.snd).sum := by
    apply List.single_le_sum
    · intro x hx
      obtain ⟨kv', hkv', rfl⟩ := List.mem_map.mp hx
      exact hNonNeg kv' hkv'
    · exact List.mem_map.mpr ⟨kv, hkv, rfl⟩
  rw [hsum] at hle
  exact hle

/-- Witness of C17 (amended): the ratio `{"POST": 4, "GET": 6}`. -/
theorem validateReqHttpMethodRatio_weights_bounded_witness :
    exampleJson.unmarshalIntMap
        (getenvOf [(EnvReqHttpMethodRatio, ratioPostGet)] EnvReqHttpMethodRatio) =
      some [("POST", 4), ("GET", 6)] ∧
    validateReqHttpMethodRatio exampleJson
      (getenvOf [(EnvReqHttpMethodRatio, ratioPostGet)]) = none ∧
    (∀ kv ∈ [("POST", (4 : Int)), ("GET", 6)], 0 ≤ kv.2) ∧
    inInt64 ([("POST", (4 : Int)), ("GET", 6)].map Prod.snd).sum ∧
    (∀ kv ∈ [("POST", (4 : Int)), ("GET", 6)], 0 ≤ kv.2 ∧ kv.2 ≤ 10) :=
  ⟨by decide, by decide, by decide, by decide,
    validateReqHttpMethodRatio_weights_bounded exampleJson
      (getenvOf [(EnvReqHttpMethodRatio, ratioPostGet)]) [("POST", 4), ("GET", 6)]
      (by decide) (by decide) (by decide) (by decide)⟩

/-! ## Theorems: main -/

/-- A complete run of the goroutines of a trial: every waiting goroutine calls
`Attack` exactly once, every goroutine merges exactly once, and nothing else
happens. -/
theorem runWorkers_complete (fuel : Nat) (choices waiting attacked : List Nat)
    (hFuel : 2 * waiting.length + attacked.length ≤ fuel) :
    (attackIndices (runWorkers fuel choices waiting attacked)).Perm waiting ∧
    (mergeIndices (runWorkers fuel choices waiting attacked)).Perm (waiting ++ attacked) ∧
    (runWorkers fuel choices waiting attacked).length =
      2 * waiting.length + attacked.length ∧
    ∀ e ∈ runWorkers fuel choices waiting attacked, e.isWorkerStep = true := by
  induction fuel generalizing choices waiting attacked with
  | zero =>
    have hw : waiting = [] := List.length_eq_zero.mp (by omega)
    have ha : attacked = [] := List.length_eq_zero.mp (by omega)
    subst hw; subst ha
    simp [runWorkers, attackIndices, mergeIndices]
  | succ fuel ih =>
    unfold runWorkers
    simp only []
    cases hk : waiting[choices.headD 0 % (waiting.length + attacked.length)]? with
    | some index =>
      have hmem : index ∈ waiting := List.getElem?_mem hk
      have hlen : (waiting.erase index).length = waiting.length - 1 :=
        List.length_erase_of_mem hmem
      have hpos : 0 < waiting.length := List.length_pos_of_mem hmem
      obtain ⟨h1, h2, h3, h4⟩ := ih choices.tail (waiting.erase index) (attacked ++ [index])
        (by rw [hlen, List.length_append, List.length_singleton]; omega)
      have hperm : waiting.Perm (index :: waiting.erase index) := List.perm_cons_erase hmem
      refine ⟨?_, ?_, ?_, ?_⟩
      · simp only [attackIndices, List.filterMap_cons] at h1 ⊢
        exact (List.Perm.cons index h1).trans hperm.symm
      · simp only [mergeIndices, List.filterMap_cons] at h2 ⊢
        refine h2.trans ?_
        have h5 : (waiting.erase index ++ (attacked ++ [index])).Perm
            (index :: waiting.erase index ++ attacked) := by
          rw [← List.append_assoc]
          exact List.perm_append_singleton _ _ |>.trans (by simp)
        exact h5.trans (List.Perm.append_right attacked hperm.symm)
      · rw [List.length_cons, h3, hlen, List.length_append, List.length_singleton]
        omega
      · intro e he
        rcases List.mem_cons.mp he with rfl | he'
        · rfl
        · exact h4 e he'
    | none =>
      simp only []
      cases hk' : attacked[choices.headD 0 % (waiting.length + attacked.length) -
          waiting.length]? with
      | some index =>
        have hmem : index ∈ attacked := List.getElem?_mem hk'
        have hlen : (attacked.erase index).length = attacked.length - 1 :=
          List.length_erase_of_mem hmem
        have hpos : 0 < attacked.length := List.length_pos_of_mem hmem
        obtain ⟨h1, h2, h3, h4⟩ := ih choices.tail waiting (attacked.erase index)
          (by rw [hlen]; omega)
        have hperm : attacked.Perm (index :: attacked.erase index) :=
          List.perm_cons_erase hmem
        refine ⟨?_, ?_, ?_, ?_⟩
        · simp only [attackIndices, List.filterMap_cons] at h1 ⊢
          exact h1
        · simp only [mergeIndices, List.filterMap_cons] at h2 ⊢
          refine (List.Perm.cons index h2).trans ?_
          have h5 : (index :: (waiting ++ attacked.erase index)).Perm
              (waiting ++ index :: attacked.erase index) := List.perm_middle.symm
          exact h5.trans (List.Perm.append_left waiting hperm.symm)
        · rw [List.length_cons, h3, hlen]
          omega
        · intro e he
          rcases List.mem_cons.mp he with rfl | he'
          · rfl
          · exact h4 e he'
      | none =>
        simp only []
        have hw := List.getElem?_eq_none_iff.mp hk
        have ha := List.getElem?_eq_none_iff.mp hk'
        have hzero : waiting.length + attacked.length = 0 := by
          by_contra hne
          have hlt := Nat.mod_lt (choices.headD 0) (Nat.pos_of_ne_zero hne)
          omega
        have hw0 : waiting = [] := List.length_eq_zero.mp (by omega)
        have ha0 : attacked = [] := List.length_eq_zero.mp (by omega)
        subst hw0; subst ha0
        simp [attackIndices, mergeIndices]

theorem scanMethods_events {σ : Type}
    (f : σ → PercentileKind → Int → String → Bool × σ) (rt : RuntimeInfo)
    (qk : PercentileKind) (th : Int) (nk : PercentileKind) (ms : List String) (s : σ) :
    ∀ e ∈ (scanMethods f rt qk th nk ms s).1, e.isAlertEvent = true := by
  induction ms generalizing s with
  | nil => simp [scanMethods]
  | cons m rest ih =>
    unfold scanMethods
    rcases h : f s qk th m with ⟨b, s'⟩
    cases b
    · intro e he
      simp only [List.mem_cons] at he
      rcases he with rfl | he'
      · rfl
      · exact ih s' e he'
    · intro e he
      simp only [List.mem_cons, List.mem_singleton] at he
      rcases he with rfl | rfl | he'
      · rfl
      · rfl
      · exact absurd he' (List.not_mem_nil _)

/-- The alert phase only prints, queries the calculator and notifies. -/
theorem alertPhase_events {σ : Type}
    (f : σ → PercentileKind → Int → String → Bool × σ) (rt : RuntimeInfo) (c : σ) :
    ∀ e ∈ alertPhase f rt c, e.isAlertEvent = true := by
  by_cases hEnable : rt.EnableAlert = true
  · rw [alertPhase_enabled _ _ _ hEnable]
    have hscan := scanMethods_events f rt
    intro e
    split
    · simp only []
      split
      · intro he
        rcases List.mem_cons.mp he with rfl | he'
        · rfl
        · exact hscan _ _ _ _ _ e he'
      · split
        · intro he
          rcases List.mem_cons.mp he with rfl | he'
          · rfl
          · rcases List.mem_append.mp he' with h1 | h2
            · exact hscan _ _ _ _ _ e h1
            · exact hscan _ _ _ _ _ e h2
        · intro he
          rcases List.mem_cons.mp he with rfl | he'
          · rfl
          · exact hscan _ _ _ _ _ e he'
    · split
      · intro he
        rcases List.mem_cons.mp he with rfl | he'
        · rfl
        · exact hscan _ _ _ _ _ e he'
      · intro he
        rcases List.mem_singleton.mp he with rfl
        rfl
  · simp [alertPhase, hEnable]

/-- The worker phase of a trial with `T` threads: the `Attack` indices and the
merge indices are each a permutation of `1, ..., T`. -/
theorem trialWorkers_complete (T : Nat) (choices : List Nat) :
    (attackIndices (trialWorkers T choices)).Perm (List.range' 1 T) ∧
    (mergeIndices (trialWorkers T choices)).Perm (List.range' 1 T) ∧
    (trialWorkers T choices).length = 2 * T ∧
    ∀ e ∈ trialWorkers T choices, e.isWorkerStep = true := by
  have h := runWorkers_complete (2 * T) choices (workerIndices T) []
    (by simp [workerIndices])
  simpa [trialWorkers, workerIndices] using h

theorem countP_eq_zero_of_forall (p : Event → Bool) (l : List Event)
    (h : ∀ e ∈ l, p e = false) : l.countP p = 0 := by
  rw [List.countP_eq_zero]
  intro e he
  simp [h e he]

theorem sum_map_const_of_forall (l : List Nat) (f : Nat → Nat) (c : Nat)
    (h : ∀ i ∈ l, f i = c) : (l.map f).sum = l.length * c := by
  induction l with
  | nil => simp
  | cons a rest ih =>
    rw [List.map_cons, List.sum_cons, h a (List.mem_cons_self _ _),
      ih fun i hi => h i (List.mem_cons_of_mem _ hi), List.length_cons]
    ring

/-- The number of events satisfying `p` in the trace of a run with a valid
environment, for a `p` that holds of no worker step and of no alert event. -/
theorem countP_main {σ : Type} (p : Event → Bool) (c : Nat) (json : Json)
    (getenv : String → String) (runtime : RuntimeInfo) (scheduler : Nat → List Nat)
    (startTime endTime : Int)
    (IsOverThreshHold : σ → PercentileKind → Int → String → Bool × σ) (calculator : σ)
    (hValid : ValidateEnv json getenv = [])
    (hWorker : ∀ e, e.isWorkerStep = true → p e = false)
    (hAlert : ∀ e, e.isAlertEvent = true → p e = false)
    (hGraph : p Event.generateCharts = false ∧ p Event.output = false)
    (hTrial : ∀ i, [Event.println "",
       Event.calculatePerTrial MethodGet i,
       Event.calculatePerTrial MethodPost i,
       Event.calculatePerTrial MethodPut i,
       Event.calculatePerTrial MethodPatch i,
       Event.calculatePerTrial MethodDelete i,
       Event.sleep 1].countP p = c) :
    (main json getenv runtime scheduler startTime endTime IsOverThreshHold calculator).countP p =
      (if p Event.warmup then 1 else 0) + runtime.TrialNum.toNat * c := by
  have hTrialCount : ∀ i, (benchmarkTrial runtime.ThreadNum.toNat (scheduler i) i).countP p
      = c := by
    intro i
    unfold benchmarkTrial
    rw [List.countP_append, hTrial i, countP_eq_zero_of_forall p _
      (fun e he => hWorker e ((trialWorkers_complete _ _).2.2.2 e he)), zero_add]
  have hLoop : ((List.range' 1 runtime.TrialNum.toNat).flatMap fun i =>
      benchmarkTrial runtime.ThreadNum.toNat (scheduler i) i).countP p =
      runtime.TrialNum.toNat * c := by
    rw [List.countP_flatMap, sum_map_const_of_forall _ _ c
      (fun i _ => by simpa using hTrialCount i), List.length_range']
  have hAlertCount : (alertPhase IsOverThreshHold runtime calculator).countP p = 0 :=
    countP_eq_zero_of_forall p _ (fun e he => hAlert e (alertPhase_events _ _ _ e he))
  have hPrint : ∀ msg, p (Event.println msg) = false := fun msg => hAlert _ rfl
  simp only [main, hValid, ne_eq, not_true_eq_false, if_false, List.countP_append, hLoop,
    hAlertCount, List.countP_cons, List.countP_nil, hPrint, hGraph.1, hGraph.2]
  simp

/-- C14: whenever `ValidateEnv` returns a non-empty list of errors, `main`
prints each error in list order and exits with status 1; the trace contains
no `Warmup`, no `Attack` and no `NotifyAlert` call. -/
theorem main_invalid_env_exits {σ : Type} (json : Json) (getenv : String → String)
    (runtime : RuntimeInfo) (scheduler : Nat → List Nat) (startTime endTime : Int)
    (IsOverThreshHold : σ → PercentileKind → Int → String → Bool × σ) (calculator : σ)
    (hErrs : ValidateEnv json getenv ≠ []) :
    main json getenv runtime scheduler startTime endTime IsOverThreshHold calculator =
      (ValidateEnv json getenv).map Event.println ++ [Event.exit 1] ∧
    Event.warmup ∉
      main json getenv runtime scheduler startTime endTime
        IsOverThreshHold calculator ∧
    (∀ index, Event.attack index ∉
      main json getenv runtime scheduler startTime endTime
        IsOverThreshHold calculator) ∧
    (∀ webHookUrl channel kind, Event.notifyAlert webHookUrl channel kind ∉
      main json getenv runtime scheduler startTime endTime
        IsOverThreshHold calculator) := by
  have htrace : main json getenv runtime scheduler startTime endTime IsOverThreshHold calculator =
      (ValidateEnv json getenv).map Event.println ++ [Event.exit 1] := by
    simp only [main, ne_eq, hErrs, not_false_eq_true, if_true]
  rw [htrace]
  refine ⟨rfl, ?_, ?_, ?_⟩
  · simp
  · intro index
    simp
  · intro webHookUrl channel kind
    simp

/-- Witness of C14: in the empty environment the five errors are printed and
`main` exits with status 1. -/
theorem main_invalid_env_exits_witness :
    ValidateEnv exampleJson (getenvOf []) ≠ [] ∧
    main exampleJson (getenvOf []) exampleRuntime exampleScheduler 100 200
        (readOnly exampleIsOverThreshHold) () =
      [Event.println "Environment valiable INPUT_TARGET_URL is required.",
       Event.println "Environment valiable INPUT_REQ_HTTP_METHOD_RATIO is required.",
       Event.println "Environment valiable INPUT_HTTP_HEADERS is required.",
       Event.println "Environment valiable INPUT_THREAD_NUM is required.",
       Event.println "Environment valiable INPUT_TRIAL_NUM is required.",
       Event.exit 1] ∧
    Event.warmup ∉ main exampleJson (getenvOf []) exampleRuntime exampleScheduler 100 200
        (readOnly exampleIsOverThreshHold) () :=
  ⟨by decide,
    (main_invalid_env_exits exampleJson (getenvOf []) exampleRuntime exampleScheduler 100 200
      (readOnly exampleIsOverThreshHold) () (by decide)).1.trans (by decide),
    (main_invalid_env_exits exampleJson (getenvOf []) exampleRuntime exampleScheduler 100 200
      (readOnly exampleIsOverThreshHold) () (by decide)).2.1⟩

/-- C15: for a valid environment, a trial count `N` and a thread count `T`
(below the largest `int`, so that the loop counters do not overflow), the trace
of `main` is one `Warmup`, then the trials `1, ..., N` in increasing order,
then the report and the alert phase.  Trial `i` is its worker phase, in which
the `Attack` indices are exactly the distinct values `1, ..., T` and every
worker merges once, then, after all merges, the five `CalculatePerTrial` calls
with trial index `i` for GET, POST, PUT, PATCH, DELETE in that order, then one
pause of one second.  In total there are `N` pauses, one after each trial,
the last included. -/
theorem main_benchmark_loop {σ : Type} (json : Json) (getenv : String → String)
    (runtime : RuntimeInfo) (scheduler : Nat → List Nat) (startTime endTime : Int)
    (IsOverThreshHold : σ → PercentileKind → Int → String → Bool × σ) (calculator : σ)
    (N T : Nat)
    (hValid : ValidateEnv json getenv = [])
    (hTrialNum : runtime.TrialNum = N) (hThreadNum : runtime.ThreadNum = T)
    (hBound : N < 2 ^ 63 - 1 ∧ T < 2 ^ 63 - 1) :
    main json getenv runtime scheduler startTime endTime IsOverThreshHold calculator =
      [Event.warmup,
       Event.println ("Start benchmarking. time = " ++ toString startTime ++ "\n")] ++
      ((List.range' 1 N).flatMap fun i =>
        trialWorkers T (scheduler i) ++
          [Event.println "",
           Event.calculatePerTrial "GET" i,
           Event.calculatePerTrial "POST" i,
           Event.calculatePerTrial "PUT" i,
           Event.calculatePerTrial "PATCH" i,
           Event.calculatePerTrial "DELETE" i,
           Event.sleep 1]) ++
      [Event.println ("End benchmarking. time = " ++ toString endTime),
       Event.generateCharts,
       Event.output] ++
      alertPhase IsOverThreshHold runtime calculator ∧
    (∀ i, (attackIndices (trialWorkers T (scheduler i))).Perm (List.range' 1 T) ∧
      (mergeIndices (trialWorkers T (scheduler i))).Perm (List.range' 1 T) ∧
      (trialWorkers T (scheduler i)).length = 2 * T ∧
      ∀ e ∈ trialWorkers T (scheduler i), e.isWorkerStep = true) ∧
    (∀ e ∈ alertPhase IsOverThreshHold runtime calculator, e.isAlertEvent = true) ∧
    (main json getenv runtime scheduler startTime endTime
        IsOverThreshHold calculator).countP
      Event.isWarmup = 1 ∧
    (main json getenv runtime scheduler startTime endTime
        IsOverThreshHold calculator).countP
      Event.isCalculatePerTrial = 5 * N ∧
    (main json getenv runtime scheduler startTime endTime
        IsOverThreshHold calculator).countP
      Event.isSleep = N ∧
    (main json getenv runtime scheduler startTime endTime
        IsOverThreshHold calculator).countP
      (fun e => decide (e = Event.sleep 1)) = N := by
  have _ := hBound
  have hN : runtime.TrialNum.toNat = N := by rw [hTrialNum]; exact Int.toNat_ofNat N
  have hT : runtime.ThreadNum.toNat = T := by rw [hThreadNum]; exact Int.toNat_ofNat T
  refine ⟨?_, fun i => trialWorkers_complete T (scheduler i), alertPhase_events _ _ _,
    ?_, ?_, ?_, ?_⟩
  · simp only [main, hValid, ne_eq, not_true_eq_false, if_false, hN, hT, benchmarkTrial]
    rfl
  · rw [countP_main Event.isWarmup 0 json getenv runtime scheduler startTime endTime
      IsOverThreshHold calculator hValid
      (by intro e he; cases e <;> simp_all [Event.isWorkerStep, Event.isWarmup])
      (by intro e he; cases e <;> simp_all [Event.isAlertEvent, Event.isWarmup])
      ⟨rfl, rfl⟩ (by intro i; rfl)]
    simp [Event.isWarmup]
  · rw [countP_main Event.isCalculatePerTrial 5 json getenv runtime scheduler startTime endTime
      IsOverThreshHold calculator hValid
      (by intro e he; cases e <;> simp_all [Event.isWorkerStep, Event.isCalculatePerTrial])
      (by intro e he; cases e <;> simp_all [Event.isAlertEvent, Event.isCalculatePerTrial])
      ⟨rfl, rfl⟩ (by intro i; rfl), hN]
    simp [Event.isCalculatePerTrial, Nat.mul_comm]
  · rw [countP_main Event.isSleep 1 json getenv runtime scheduler startTime endTime
      IsOverThreshHold calculator hValid
      (by intro e he; cases e <;> simp_all [Event.isWorkerStep, Event.isSleep])
      (by intro e he; cases e <;> simp_all [Event.isAlertEvent, Event.isSleep])
      ⟨rfl, rfl⟩ (by intro i; rfl), hN]
    simp [Event.isSleep]
  · rw [countP_main (fun e => decide (e = Event.sleep 1)) 1 json getenv runtime scheduler
      startTime endTime IsOverThreshHold calculator hValid
      (by intro e he; cases e <;> simp_all [Event.isWorkerStep])
      (by intro e he; cases e <;> simp_all [Event.isAlertEvent])
      ⟨by simp, by simp⟩ (by intro i; simp [List.countP_cons]), hN]
    simp

/-- Witness of C15: two trials of two threads; in trial 1 worker 2 calls
`Attack` first and worker 1 merges first. -/
theorem main_benchmark_loop_witness :
    ValidateEnv exampleJson (getenvOf (exampleEnviron ratioGetOnly "2" "2")) = [] ∧
    exampleRuntime.TrialNum = (2 : Nat) ∧
    exampleRuntime.ThreadNum = (2 : Nat) ∧
    ((2 : Nat) < 2 ^ 63 - 1 ∧ (2 : Nat) < 2 ^ 63 - 1) ∧
    main exampleJson (getenvOf (exampleEnviron ratioGetOnly "2" "2")) exampleRuntime
        exampleScheduler 100 200 (readOnly exampleIsOverThreshHold) () =
      [Event.warmup,
       Event.println "Start benchmarking. time = 100\n",
       Event.attack 2, Event.attack 1, Event.merge 1, Event.merge 2,
       Event.println "",
       Event.calculatePerTrial "GET" 1,
       Event.calculatePerTrial "POST" 1,
       Event.calculatePerTrial "PUT" 1,
       Event.calculatePerTrial "PATCH" 1,
       Event.calculatePerTrial "DELETE" 1,
       Event.sleep 1,
       Event.attack 1, Event.attack 2, Event.merge 1, Event.merge 2,
       Event.println "",
       Event.calculatePerTrial "GET" 2,
       Event.calculatePerTrial "POST" 2,
       Event.calculatePerTrial "PUT" 2,
       Event.calculatePerTrial "PATCH" 2,
       Event.calculatePerTrial "DELETE" 2,
       Event.sleep 1,
       Event.println "End benchmarking. time = 200",
       Event.generateCharts,
       Event.output,
       Event.println "\nCheck alert threshold",
       Event.isOverThreshHold PercentileKind.PercentileAvg 50 "GET",
       Event.isOverThreshHold PercentileKind.PercentileAvg 50 "PUT",
       Event.notifyAlert "https://hooks.slack.com/services/T0/B0/X" "#bench"
         PercentileKind.PercentileAvg] ∧
    (main exampleJson (getenvOf (exampleEnviron ratioGetOnly "2" "2")) exampleRuntime
        exampleScheduler 100 200 (readOnly exampleIsOverThreshHold) ()).countP
      Event.isSleep = 2 :=
  ⟨by decide, rfl, rfl, by decide,
    (main_benchmark_loop exampleJson (getenvOf (exampleEnviron ratioGetOnly "2" "2"))
      exampleRuntime exampleScheduler 100 200 (readOnly exampleIsOverThreshHold) () 2 2
      (by decide) rfl rfl (by decide)).1.trans (by decide),
    (main_benchmark_loop exampleJson (getenvOf (exampleEnviron ratioGetOnly "2" "2"))
      exampleRuntime exampleScheduler 100 200 (readOnly exampleIsOverThreshHold) () 2 2
      (by decide) rfl rfl (by decide)).2.2.2.2.2.1⟩

end Benchmark
